import Mathlib

/-!
# SlitherMatch game server — shallow embedding

A shallow embedding of the room/session engine of the SlitherMatch game
server (`src/server.ts`) together with proofs about the behaviour of its
operations: matchmaking (`find-game`), joining, leaving, respawning, the
room lifecycle (countdown / start / end / teardown), and the fixed-rate
physics tick (movement, wall collision, food collision, snake-vs-snake
collision, scoring, growth).

Modelling conventions:
* JavaScript numbers are modelled as rationals (`ℚ`); integer counters
  (scores, kill counts) as `ℤ` / `ℕ`.
* A JavaScript `Map` is modelled as an insertion-ordered association list
  (`List (String × α)`) with `mget` / `mset` / `mdel` mirroring
  `Map.get` / `Map.set` / `Map.delete` (set replaces in place, delete
  removes the unique entry with the key).
* `Math.random()` and `Math.cos`/`Math.sin` are effects; they are made
  explicit as an oracle (`Rng`): a stream of random draws consumed in
  program order, plus arbitrary cosine/sine functions.
* `Math.sqrt(dx*dx+dy*dy) < t` is modelled by the equivalent (for the
  nonnegative thresholds that occur) squared comparison
  `0 ≤ t ∧ dx^2 + dy^2 < t^2`, which keeps everything inside `ℚ`.
* `socket.emit` / `io.to(..).emit` calls are modelled as an emitted event
  list; `setTimeout` calls as a list of scheduled tasks (`Sched`).
-/

namespace SlitherMatch

/-- A 2-D world coordinate (interface `Position`). -/
structure Pos where
  x : ℚ
  y : ℚ
deriving DecidableEq

instance : Inhabited Pos := ⟨⟨0, 0⟩⟩

/-- Interface `Snake` from `server.ts`. -/
structure Snake where
  id : String
  segments : List Pos
  angle : ℚ
  score : ℤ
  radius : ℚ
  color : String
  isDead : Bool
  killCount : ℕ
deriving DecidableEq

/-- Interface `Player` from `server.ts` (timestamps kept as integers). -/
structure Player where
  id : String
  socketId : String
  address : String
  username : String
  profilePic : Option String
  snake : Snake
  lastUpdate : ℤ
  joinedAt : ℤ
deriving DecidableEq

/-- Interface `Food` from `server.ts`. -/
structure Food where
  id : String
  pos : Pos
  color : String
  radius : ℚ
deriving DecidableEq

/-- Room lifecycle states. -/
inductive RoomState where
  | waiting
  | countdown
  | playing
  | ended
deriving DecidableEq

/-- The three room types. -/
inductive RoomType where
  | paid
  | casual
  | freeplay
deriving DecidableEq

/-- A leaderboard entry. -/
structure LBEntry where
  id : String
  username : String
  score : ℤ
deriving DecidableEq

/-- Interface `GameRoom` from `server.ts`.  The `players` and `food` maps
are insertion-ordered association lists. -/
structure GameRoom where
  id : String
  rtype : RoomType
  players : List (String × Player)
  food : List (String × Food)
  state : RoomState
  startTime : Option ℤ
  countdownStartTime : Option ℤ
  winner : Option String
  worldSize : ℚ
  maxPlayers : ℕ
  minPlayers : ℕ
  leaderboard : Option (List LBEntry)
deriving DecidableEq

/-! ## Association-list model of JavaScript `Map` -/

/-- `Map.get`: first entry with the key. -/
def mget {α : Type} : List (String × α) → String → Option α
  | [], _ => none
  | (k', v') :: rest, k => if k' = k then some v' else mget rest k

/-- `Map.set`: replace in place if the key is present, else append. -/
def mset {α : Type} : List (String × α) → String → α → List (String × α)
  | [], k, v => [(k, v)]
  | (k', v') :: rest, k, v =>
      if k' = k then (k, v) :: rest else (k', v') :: mset rest k v

/-- `Map.delete`: remove the first entry with the key. -/
def mdel {α : Type} : List (String × α) → String → List (String × α)
  | [], _ => []
  | (k', v') :: rest, k => if k' = k then rest else (k', v') :: mdel rest k

/-- The keys of the map, in insertion order. -/
def mkeys {α : Type} (l : List (String × α)) : List String := l.map Prod.fst

/-! ## Constants (`server.ts` top of file) -/

def WORLD_SIZE_PAID : ℚ := 1332

def WORLD_SIZE_CASUAL : ℚ := 2000

def WORLD_SIZE_FREEPLAY : ℚ := 3000

def FOOD_COUNT_PAID : ℕ := 150

def FOOD_COUNT_CASUAL : ℕ := 200

def FOOD_COUNT_FREEPLAY : ℕ := 500

def FOOD_COLORS : List String := ["#00ffd1", "#fc4fff", "#f1ff00", "#ff1f4d"]

def PLAYER_COLORS : List String :=
  ["#00ffff", "#ff00ff", "#ffff00", "#00ff00", "#ff0000", "#ff8800", "#0088ff", "#8800ff"]

/-- `ROOM_CONFIGS[type].maxPlayers`. -/
def roomMaxPlayers : RoomType → ℕ
  | RoomType.paid => 5
  | RoomType.casual => 5
  | RoomType.freeplay => 30

/-- `ROOM_CONFIGS[type].minPlayers`. -/
def roomMinPlayers : RoomType → ℕ
  | RoomType.paid => 3
  | RoomType.casual => 3
  | RoomType.freeplay => 1

/-- `ROOM_CONFIGS[type].worldSize`. -/
def roomWorldSize : RoomType → ℚ
  | RoomType.paid => WORLD_SIZE_PAID
  | RoomType.casual => WORLD_SIZE_CASUAL
  | RoomType.freeplay => WORLD_SIZE_FREEPLAY

/-- `ROOM_CONFIGS[type].foodCount`. -/
def roomFoodCount : RoomType → ℕ
  | RoomType.paid => FOOD_COUNT_PAID
  | RoomType.casual => FOOD_COUNT_CASUAL
  | RoomType.freeplay => FOOD_COUNT_FREEPLAY

/-- `ROOM_CONFIGS.casual.maxRooms`. -/
def casualMaxRooms : ℕ := 3

/-! ## Randomness oracle -/

/-- One bundle of random values, enough for a single `generateFood` /
food-drop construction: a `generateId()` result, the `Math.random()`
values used for the two coordinates (or for the jitter), the color pick
and the radius draw. -/
structure Draw where
  id : String
  r1 : ℚ
  r2 : ℚ
  colorIdx : ℕ
  r3 : ℚ

/-- The effect oracle: a stream of random draws (consumed left to right
in program order) plus the trigonometric functions used for movement. -/
structure Rng where
  draw : ℕ → Draw
  cos : ℚ → ℚ
  sin : ℚ → ℚ

/-- `Math.sqrt((p.x-q.x)^2 + (p.y-q.y)^2) < t`, encoded without square
roots: for a threshold `t`, the distance is `< t` iff `t` is nonnegative
and the squared distance is `< t^2`. -/
def distLtB (p q : Pos) (t : ℚ) : Bool :=
  decide (0 ≤ t ∧ (p.x - q.x) ^ 2 + (p.y - q.y) ^ 2 < t ^ 2)

/-- `generateFood(worldSize)` with the random draws made explicit. -/
def generateFood (worldSize : ℚ) (d : Draw) : Food :=
  { id := d.id
    pos := { x := 50 + d.r1 * (worldSize - 100), y := 50 + d.r2 * (worldSize - 100) }
    color := FOOD_COLORS.getD (d.colorIdx % FOOD_COLORS.length) ""
    radius := 4 + d.r3 * 2 }

/-- `generateStartPosition(worldSize)` with the random draws made explicit. -/
def generateStartPosition (worldSize : ℚ) (d : Draw) : Pos :=
  { x := 200 + d.r1 * (worldSize - 2 * 200), y := 200 + d.r2 * (worldSize - 2 * 200) }

/-- `getPlayerColor(index)`. -/
def getPlayerColor (index : ℕ) : String :=
  PLAYER_COLORS.getD (index % PLAYER_COLORS.length) ""

/-! ## Emitted events and scheduled tasks -/

/-- The outbound events relevant to the verified claims (`io.emit` /
`socket.emit` calls).  The freeplay `player-died` payload carries no
`droppedFood` field; it is modelled as an empty dropped list. -/
inductive Ev where
  | playerDied (playerId : String) (dropped : List Food) (killedBy : Option String)
      (canRespawn : Bool)
  | foodEaten (playerId : String) (foodId : String) (newFood : Food) (score : ℤ)
  | gameEnded (winner : Option String) (rtype : RoomType)
  | countdownStarted (duration : ℕ) (startTime : ℤ)
  | gameStarted (startTime : ℤ)
  | playerLeft (playerId : String)
  | respawned (playerId : String) (snake : Snake)
deriving DecidableEq

/-- `setTimeout` calls: the countdown expiry check armed by
`startCountdown` (30 000 ms) and the delayed registry deletion armed by
`endGame` (5 000 ms). -/
inductive Sched where
  | countdownCheck (gameId : String) (delayMs : ℕ)
  | deleteRoomAt (gameId : String) (delayMs : ℕ)
deriving DecidableEq

/-! ## Simulation engine (the 60 Hz physics `setInterval` body) -/

/-- Overwrite the stored snake of player `pid` (the source mutates the
`Player` object held in the room's map in place). -/
def setSnake (g : GameRoom) (pid : String) (s : Snake) : GameRoom :=
  match mget g.players pid with
  | none => g
  | some p => { g with players := mset g.players pid { p with snake := s } }

/-- One food item produced by `dropFoodFromSnake` for the segment `seg`
(jitter `(Math.random()-0.5)*20`, clamped into `[10, worldSize-10]`). -/
def dropSegmentFood (worldSize : ℚ) (seg : Pos) (d : Draw) : Food :=
  { id := d.id
    pos :=
      { x := max 10 (min (worldSize - 10) (seg.x + (d.r1 - 1 / 2) * 20))
        y := max 10 (min (worldSize - 10) (seg.y + (d.r2 - 1 / 2) * 20)) }
    color := FOOD_COLORS.getD (d.colorIdx % FOOD_COLORS.length) ""
    radius := 4 + d.r3 * 2 }

/-- One iteration of the `dropFoodFromSnake` loop: an even-indexed
segment spawns one food item, odd indices are skipped. -/
def dropFoodStep (rng : Rng) (acc : GameRoom × ℕ × List Food) (iseg : ℕ × Pos) :
    GameRoom × ℕ × List Food :=
  if iseg.1 % 2 = 0 then
    let food := dropSegmentFood acc.1.worldSize iseg.2 (rng.draw acc.2.1)
    ({ acc.1 with food := mset acc.1.food food.id food }, acc.2.1 + 1,
      acc.2.2 ++ [food])
  else acc

/-- `dropFoodFromSnake(game, player)`: every even-indexed segment of the
player's snake spawns one food item, inserted into the room's food map;
returns the updated room, the advanced draw counter and the dropped food
list. -/
def dropFoodFromSnake (rng : Rng) (g : GameRoom) (p : Player) (k : ℕ) :
    GameRoom × ℕ × List Food :=
  p.snake.segments.enum.foldl (dropFoodStep rng) (g, k, [])

/-- The room-local part of `checkWinCondition(game, gameId)`: if at most
one player is alive the room ends, the sole survivor (if any) becomes the
winner and a `game-ended` event is emitted.  The returned flag records
whether `endGame` was invoked (its registry-level effect is modelled
separately in `endGame`). -/
def checkWinCondition (g : GameRoom) : GameRoom × List Ev × Bool :=
  let alive := g.players.filter (fun q => !q.2.snake.isDead)
  if alive.length ≤ 1 then
    let w : Option String := alive.head?.map (fun q => q.2.id)
    ({ g with
        state := RoomState.ended
        winner := match w with | some i => some i | none => g.winner },
      [Ev.gameEnded w g.rtype], true)
  else (g, [], false)

/-- `newHead.x < r || newHead.x > ws - r || newHead.y < r || newHead.y > ws - r`. -/
def wallHit (worldSize radius : ℚ) (newHead : Pos) : Bool :=
  decide (newHead.x < radius) || decide (newHead.x > worldSize - radius) ||
    decide (newHead.y < radius) || decide (newHead.y > worldSize - radius)

/-- The food-collision scan (`game.food.forEach` in the tick): fold over
the food map in insertion order, threading the eaten ids, the score, the
radius (which grows as food is eaten, and is read by later distance
checks in the same scan) and the segment list (the tail is duplicated per
food eaten).  The distance test uses `head` — the head position captured
before this tick's movement step. -/
def eatStep (head : Pos) (acc : List String × ℤ × ℚ × List Pos)
    (kv : String × Food) : List String × ℤ × ℚ × List Pos :=
  if distLtB head kv.2.pos (acc.2.2.1 + kv.2.radius) then
    (acc.1 ++ [kv.1], acc.2.1 + 5, min 20 (acc.2.2.1 * 1.005),
      acc.2.2.2 ++ [acc.2.2.2.getLastD default])
  else acc

def eatScan (head : Pos) (food : List (String × Food))
    (st : List String × ℤ × ℚ × List Pos) : List String × ℤ × ℚ × List Pos :=
  food.foldl (eatStep head) st

/-- The `foodToRemove.forEach` loop: delete each eaten food id, generate
and insert a replacement, and emit a `food-eaten` event carrying the
snake's (final) score. -/
def replaceEatenStep (rng : Rng) (pid : String) (score : ℤ)
    (acc : GameRoom × ℕ × List Ev) (fid : String) : GameRoom × ℕ × List Ev :=
  let g1 := { acc.1 with food := mdel acc.1.food fid }
  let nf := generateFood g1.worldSize (rng.draw acc.2.1)
  ({ g1 with food := mset g1.food nf.id nf }, acc.2.1 + 1,
    acc.2.2 ++ [Ev.foodEaten pid fid nf score])

def replaceEaten (rng : Rng) (pid : String) (score : ℤ) (eaten : List String)
    (st : GameRoom × ℕ × List Ev) : GameRoom × ℕ × List Ev :=
  eaten.foldl (replaceEatenStep rng pid score) st

/-- Does the head of `pid` (at its pre-move position `head`) collide with
the snake of `oid` in room `g`?  Mirrors the inner `for` loop over the
other snake's segments: the first matching segment resolves the
collision (`break`), so per other snake the effect happens at most once;
existence of a matching segment is what decides it.  The test reads the
live radii of both snakes. -/
def collidesWith (g : GameRoom) (pid : String) (head : Pos) (oid : String) : Bool :=
  if oid = pid then false
  else
    match mget g.players pid, mget g.players oid with
    | some self, some other =>
        !other.snake.isDead &&
          other.snake.segments.any
            (fun seg => distLtB head seg (self.snake.radius * 0.7 + other.snake.radius * 0.7))
    | _, _ => false

/-- The snake-vs-snake collision phase of one player's tick step
(`playersArray.forEach((otherPlayer) => ...)`).  The outer scan runs over
the whole tick snapshot `pids` and is *not* stopped by the snake's own
death: only the inner segment loop `break`s. -/
def collisionStep (rng : Rng) (pid : String) (head : Pos)
    (acc : GameRoom × ℕ × List Ev) (oid : String) : GameRoom × ℕ × List Ev :=
  if collidesWith acc.1 pid head oid then
    match mget acc.1.players pid, mget acc.1.players oid with
    | some self, some other =>
        if acc.1.rtype = RoomType.freeplay then
          let g1 := setSnake acc.1 oid
            { other.snake with
              score := other.snake.score + 50
              killCount := other.snake.killCount + 1 }
          let g2 := setSnake g1 pid { self.snake with isDead := true }
          (g2, acc.2.1, acc.2.2 ++ [Ev.playerDied pid [] (some oid) true])
        else
          let g1 := setSnake acc.1 pid { self.snake with isDead := true }
          let p1 := { self with snake := { self.snake with isDead := true } }
          let d := dropFoodFromSnake rng g1 p1 acc.2.1
          let w := checkWinCondition d.1
          (w.1, d.2.1,
            acc.2.2 ++ [Ev.playerDied pid d.2.2 (some oid) false] ++ w.2.1)
    | _, _ => acc
  else acc

def collisionPhase (rng : Rng) (pids : List String) (pid : String) (head : Pos)
    (st : GameRoom × ℕ × List Ev) : GameRoom × ℕ × List Ev :=
  pids.foldl (collisionStep rng pid head) st

/-- One player's step inside the physics tick body (`playersArray.forEach`
in the 60 Hz `setInterval`): movement, wall collision, food collision and
growth, food replacement, snake-vs-snake collision. -/
def stepPlayer (rng : Rng) (pids : List String) (st : GameRoom × ℕ × List Ev)
    (pid : String) : GameRoom × ℕ × List Ev :=
  match mget st.1.players pid with
  | none => st
  | some player =>
    if player.snake.isDead then st
    else
      let g := st.1
      let snake := player.snake
      let head := snake.segments.headI
      let speed : ℚ := 1.8
      let newHead : Pos :=
        { x := head.x + rng.cos snake.angle * speed
          y := head.y + rng.sin snake.angle * speed }
      if wallHit g.worldSize snake.radius newHead then
        if g.rtype = RoomType.freeplay then
          (setSnake g pid { snake with isDead := true }, st.2.1,
            st.2.2 ++ [Ev.playerDied pid [] none true])
        else
          let g1 := setSnake g pid { snake with isDead := true }
          let p1 := { player with snake := { snake with isDead := true } }
          let d := dropFoodFromSnake rng g1 p1 st.2.1
          let w := checkWinCondition d.1
          (w.1, d.2.1, st.2.2 ++ [Ev.playerDied pid d.2.2 none false] ++ w.2.1)
      else
        let movedSegs := newHead :: snake.segments.dropLast
        let scan := eatScan head g.food ([], snake.score, snake.radius, movedSegs)
        let snake1 :=
          { snake with segments := scan.2.2.2, score := scan.2.1, radius := scan.2.2.1 }
        let g1 := setSnake g pid snake1
        let r := replaceEaten rng pid scan.2.1 scan.1 (g1, st.2.1, st.2.2)
        collisionPhase rng pids pid head r

/-- One execution of the physics `setInterval` body for one room: skipped
unless the room is `playing` or is the freeplay room; otherwise every
player of the tick-start snapshot is stepped in insertion order. -/
def tickRoom (rng : Rng) (g : GameRoom) (k : ℕ) : GameRoom × ℕ × List Ev :=
  if g.state = RoomState.playing ∨ g.rtype = RoomType.freeplay then
    let pids := mkeys g.players
    pids.foldl (stepPlayer rng pids) (g, k, [])
  else (g, k, [])

/-- `updateLeaderboard(game)`: among living players, the top 10 by score
(descending). -/
def updateLeaderboard (g : GameRoom) : GameRoom :=
  let ranked :=
    (((g.players.map Prod.snd).filter (fun p => !p.snake.isDead)).mergeSort
        (fun a b => decide (b.snake.score ≤ a.snake.score))).take 10
  { g with
    leaderboard := some (ranked.map (fun p =>
      { id := p.id, username := p.username, score := p.snake.score })) }

/-! ## Registry, matchmaking and lifecycle -/

/-- The module-level mutable registries of `server.ts`: `games`,
`playerToGame`, `activePaidRoom`, `activeCasualRooms` (the `Set` is
insertion-ordered, modelled as a duplicate-free list). -/
structure ServerState where
  games : List (String × GameRoom)
  playerToGame : List (String × String)
  activePaidRoom : Option String
  activeCasualRooms : List String
deriving DecidableEq

/-- The `playerInfo` payload of a `find-game` request. -/
structure PlayerInfo where
  address : String
  username : String
  profilePic : Option String
deriving DecidableEq

/-- One iteration of the initial food fill loop of `createGameRoom` /
`initializeFreePlayRoom`. -/
def foodFillStep (rng : Rng) (acc : GameRoom × ℕ) (_i : ℕ) : GameRoom × ℕ :=
  let food := generateFood acc.1.worldSize (rng.draw acc.2)
  ({ acc.1 with food := mset acc.1.food food.id food }, acc.2 + 1)

/-- `createGameRoom(gameId, type)`: a fresh `waiting` room populated with
the configured number of food items (draws consumed in order). -/
def createGameRoom (rng : Rng) (gameId : String) (ty : RoomType) (k : ℕ) :
    GameRoom × ℕ :=
  let base : GameRoom :=
    { id := gameId
      rtype := ty
      players := []
      food := []
      state := RoomState.waiting
      startTime := none
      countdownStartTime := none
      winner := none
      worldSize := roomWorldSize ty
      maxPlayers := roomMaxPlayers ty
      minPlayers := roomMinPlayers ty
      leaderboard := none }
  (List.range (roomFoodCount ty)).foldl (foodFillStep rng) (base, k)

/-- The freeplay room created once at process start
(`initializeFreePlayRoom`): id `freeplay-main`, pinned at `playing`. -/
def initializeFreePlayRoom (rng : Rng) (k : ℕ) : GameRoom × ℕ :=
  let base : GameRoom :=
    { id := "freeplay-main"
      rtype := RoomType.freeplay
      players := []
      food := []
      state := RoomState.playing
      startTime := none
      countdownStartTime := none
      winner := none
      worldSize := WORLD_SIZE_FREEPLAY
      maxPlayers := 30
      minPlayers := 1
      leaderboard := some [] }
  (List.range FOOD_COUNT_FREEPLAY).foldl (foodFillStep rng) (base, k)

/-- `startCountdown(game, gameId)`: enter `countdown`, record the start
time, broadcast, and arm the one-shot 30 000 ms expiry check. -/
def startCountdown (g : GameRoom) (gameId : String) (now : ℤ) :
    GameRoom × List Sched × List Ev :=
  ({ g with state := RoomState.countdown, countdownStartTime := some now },
    [Sched.countdownCheck gameId 30000],
    [Ev.countdownStarted 30 now])

/-- `startGame(game, gameId)`. -/
def startGame (g : GameRoom) (now : ℤ) : GameRoom × List Ev :=
  ({ g with state := RoomState.playing, startTime := some now },
    [Ev.gameStarted now])

/-- The body of the `setTimeout` armed by `startCountdown`, run 30 s
later: transition to `playing` only if the room is still in `countdown`
and still has at least `minPlayers` players; otherwise do nothing.  No
new check is armed on either path. -/
def countdownCheckTask (g : GameRoom) (now : ℤ) : GameRoom × List Sched × List Ev :=
  if g.state = RoomState.countdown ∧ g.players.length ≥ g.minPlayers then
    let s := startGame g now
    (s.1, [], s.2)
  else (g, [], [])

/-- The fresh 10-segment snake built on join and on respawn: segments
trail horizontally from the spawn position (`x - i*10`). -/
def freshSnake (sid : String) (startPos : Pos) (colorIndex : ℕ) : Snake :=
  { id := sid
    segments :=
      (List.range 10).map (fun i : ℕ => { x := startPos.x - (i : ℚ) * 10, y := startPos.y })
    angle := 0
    score := 0
    radius := 8
    color := getPlayerColor colorIndex
    isDead := false
    killCount := 0 }

/-- The `Player` record built by `joinGame` (keyed by the externally
supplied address, with a fresh 10-segment snake at the spawn point). -/
def joinedPlayer (rng : Rng) (g : GameRoom) (socketId : String) (info : PlayerInfo)
    (now : ℤ) (k : ℕ) : Player :=
  { id := info.address
    socketId := socketId
    address := info.address
    username := info.username
    profilePic := info.profilePic
    snake :=
      freshSnake info.address (generateStartPosition g.worldSize (rng.draw k))
        g.players.length
    lastUpdate := now
    joinedAt := now }

/-- The room-level effect of `joinGame`: insert the player, then — for
non-freeplay rooms still `waiting` that now have at least `minPlayers`
players — trigger `startCountdown`. -/
def joinedRoom (rng : Rng) (g : GameRoom) (gameId socketId : String)
    (info : PlayerInfo) (now : ℤ) (k : ℕ) : GameRoom × List Sched × List Ev :=
  let player := joinedPlayer rng g socketId info now k
  let g1 := { g with players := mset g.players player.id player }
  if g1.rtype ≠ RoomType.freeplay ∧ g1.players.length ≥ g1.minPlayers ∧
      g1.state = RoomState.waiting then
    startCountdown g1 gameId now
  else (g1, [], [])

/-- `joinGame(socket, game, gameId, playerInfo)`: build the new player,
insert it into the room (keyed by address) and the `playerToGame` index,
then possibly start the countdown.  There is no capacity check here. -/
def joinGame (rng : Rng) (st : ServerState) (g : GameRoom) (gameId socketId : String)
    (info : PlayerInfo) (now : ℤ) (k : ℕ) : ServerState × ℕ × List Sched × List Ev :=
  let r := joinedRoom rng g gameId socketId info now k
  ({ st with
      games := mset st.games gameId r.1
      playerToGame := mset st.playerToGame socketId gameId },
    k + 1, r.2.1, r.2.2)

/-- The result of resolving a `find-game` request. -/
inductive FindResult where
  | joined (st : ServerState) (k : ℕ) (gameId : String) (scheds : List Sched)
      (evs : List Ev)
  | unavailable (msg : String)
  | failed (msg : String)
deriving DecidableEq

/-- Is the casual room `rid` joinable (`waiting` with spare capacity)? -/
def casualJoinable (st : ServerState) (rid : String) : Bool :=
  match mget st.games rid with
  | some r => decide (r.state = RoomState.waiting) && decide (r.players.length < r.maxPlayers)
  | none => false

/-- The `find-game` handler (`socket.on('find-game', ...)`): resolve the
request to a room per the room-type policy and join it.  Paid: the
single active paid room if `waiting` with spare capacity, else reject;
create it if absent.  Casual: the first joinable casual room, else create
one if fewer than `casualMaxRooms` exist, else reject.  Freeplay: always
the persistent `freeplay-main` room, with no capacity check. -/
def findGame (rng : Rng) (st : ServerState) (gameType : RoomType) (socketId : String)
    (info : PlayerInfo) (now : ℤ) (k : ℕ) : FindResult :=
  match gameType with
  | RoomType.paid =>
    match st.activePaidRoom with
    | some pid =>
      match mget st.games pid with
      | some eg =>
        if eg.state = RoomState.waiting ∧ eg.players.length < eg.maxPlayers then
          let j := joinGame rng st eg pid socketId info now k
          FindResult.joined j.1 j.2.1 pid j.2.2.1 j.2.2.2
        else
          FindResult.unavailable
            "Paid lobby is full or in progress. Please wait for the current game to end."
      | none =>
        FindResult.unavailable
          "Paid lobby is full or in progress. Please wait for the current game to end."
    | none =>
      let gameId := "paid-" ++ (rng.draw k).id
      let c := createGameRoom rng gameId RoomType.paid (k + 1)
      let st1 := { st with
        games := mset st.games gameId c.1
        activePaidRoom := some gameId }
      let j := joinGame rng st1 c.1 gameId socketId info now c.2
      FindResult.joined j.1 j.2.1 gameId j.2.2.1 j.2.2.2
  | RoomType.casual =>
    match st.activeCasualRooms.find? (casualJoinable st) with
    | some rid =>
      match mget st.games rid with
      | some room =>
        let j := joinGame rng st room rid socketId info now k
        FindResult.joined j.1 j.2.1 rid j.2.2.1 j.2.2.2
      | none => FindResult.failed "Failed to find or create game"
    | none =>
      if st.activeCasualRooms.length < casualMaxRooms then
        let gameId := "casual-" ++ (rng.draw k).id
        let c := createGameRoom rng gameId RoomType.casual (k + 1)
        let st1 := { st with
          games := mset st.games gameId c.1
          activeCasualRooms := st.activeCasualRooms ++ [gameId] }
        let j := joinGame rng st1 c.1 gameId socketId info now c.2
        FindResult.joined j.1 j.2.1 gameId j.2.2.1 j.2.2.2
      else
        FindResult.unavailable "All casual lobbies are full. Please wait for a game to end."
  | RoomType.freeplay =>
    match mget st.games "freeplay-main" with
    | some room =>
      let j := joinGame rng st room "freeplay-main" socketId info now k
      FindResult.joined j.1 j.2.1 "freeplay-main" j.2.2.1 j.2.2.2
    | none => FindResult.failed "Failed to join game"

/-- `endGame(game, gameId)`: release the room's slot in the paid/casual
accounting *immediately*, and arm the delayed (5 000 ms) deletion of the
room from the registry. -/
def endGame (st : ServerState) (gameId : String) (ty : RoomType) :
    ServerState × List Sched :=
  let st1 :=
    match ty with
    | RoomType.paid => { st with activePaidRoom := none }
    | RoomType.casual =>
        { st with activeCasualRooms := st.activeCasualRooms.erase gameId }
    | RoomType.freeplay => st
  (st1, [Sched.deleteRoomAt gameId 5000])

/-- The body of the `setTimeout` armed by `endGame`, run 5 s later:
`games.delete(gameId)`. -/
def deleteRoomTask (st : ServerState) (gameId : String) : ServerState :=
  { st with games := mdel st.games gameId }

/-- `handlePlayerLeave(socketId, gameId)`: drop food if the leaver is
alive in a non-freeplay room, remove the player and the reverse index
entry, then (non-freeplay only) re-evaluate the win condition if
`playing` and tear the room down if it became empty. -/
def handlePlayerLeave (rng : Rng) (st : ServerState) (socketId gameId : String)
    (k : ℕ) : ServerState × ℕ × List Sched × List Ev :=
  match mget st.games gameId with
  | none => (st, k, [], [])
  | some g =>
    match g.players.find? (fun q => q.2.socketId = socketId) with
    | none => (st, k, [], [])
    | some pq =>
      let player := pq.2
      let d :=
        if ¬player.snake.isDead ∧ g.rtype ≠ RoomType.freeplay then
          dropFoodFromSnake rng g player k
        else (g, k, [])
      let g1 := { d.1 with players := mdel d.1.players player.id }
      let st1 := { st with
        games := mset st.games gameId g1
        playerToGame := mdel st.playerToGame socketId }
      let evs0 := [Ev.playerLeft player.id]
      if g1.rtype ≠ RoomType.freeplay then
        let w :=
          if g1.state = RoomState.playing then
            let c := checkWinCondition g1
            let e :=
              if c.2.2 then endGame { st1 with games := mset st1.games gameId c.1 } gameId g1.rtype
              else ({ st1 with games := mset st1.games gameId c.1 }, [])
            (e.1, e.2, c.2.1)
          else (st1, [], [])
        let st2 := w.1
        if (mget st2.games gameId).elim 0 (fun r => r.players.length) = 0 then
          let e2 := endGame st2 gameId g1.rtype
          (e2.1, d.2.1, w.2.1 ++ e2.2, evs0 ++ w.2.2)
        else (st2, d.2.1, w.2.1, evs0 ++ w.2.2)
      else (st1, d.2.1, [], evs0)

/-- The `respawn` handler (`socket.on('respawn', ...)`): freeplay only;
replace the player's snake wholesale with a fresh 10-segment snake at a
new spawn position, optionally update the username, and broadcast. -/
def respawnHandler (rng : Rng) (st : ServerState) (socketId : String)
    (username : Option String) (k : ℕ) : ServerState × ℕ × List Ev :=
  match mget st.playerToGame socketId with
  | none => (st, k, [])
  | some gameId =>
    match mget st.games gameId with
    | none => (st, k, [])
    | some g =>
      if g.rtype ≠ RoomType.freeplay then (st, k, [])
      else
        match g.players.find? (fun q => q.2.socketId = socketId) with
        | none => (st, k, [])
        | some pq =>
          let player := pq.2
          let startPos := generateStartPosition g.worldSize (rng.draw k)
          let newSnake := freshSnake player.id startPos g.players.length
          let player1 :=
            { player with
              snake := newSnake
              username := username.getD player.username }
          let g1 := { g with players := mset g.players player.id player1 }
          ({ st with games := mset st.games gameId g1 }, k + 1,
            [Ev.respawned player.id newSnake])

/-- The `move` handler (`socket.on('move', ...)`): update the heading of
a live snake; dead snakes and unknown sockets are ignored. -/
def moveHandler (st : ServerState) (socketId : String) (angle : ℚ) (now : ℤ) :
    ServerState :=
  match mget st.playerToGame socketId with
  | none => st
  | some gameId =>
    match mget st.games gameId with
    | none => st
    | some g =>
      match g.players.find? (fun q => q.2.socketId = socketId) with
      | none => st
      | some pq =>
        if pq.2.snake.isDead then st
        else
          let player1 :=
            { pq.2 with snake := { pq.2.snake with angle := angle }, lastUpdate := now }
          { st with games := mset st.games gameId { g with players := mset g.players pq.2.id player1 } }

/-! ## Concrete oracle and states used to instantiate the theorems -/

/-- A deterministic oracle: draw `n` carries the id `'a'` repeated `n`
times (all draw ids are distinct and contain only `'a'`), zero random
values, and the trigonometric values of angle `0`. -/
def wdraw (n : ℕ) : Draw :=
  { id := String.mk (List.replicate n 'a'), r1 := 0, r2 := 0, colorIdx := 0, r3 := 0 }

def wrng : Rng := { draw := wdraw, cos := fun _ => 1, sin := fun _ => 0 }

/-- A dead snake with nonzero score and kills, owned by `addr1`. -/
def wSnakeDead : Snake :=
  { id := "addr1", segments := [{ x := 100, y := 100 }], angle := 0, score := 5,
    radius := 8, color := "#00ffff", isDead := true, killCount := 2 }

def wPlayer1 : Player :=
  { id := "addr1", socketId := "s1", address := "addr1", username := "u1",
    profilePic := none, snake := wSnakeDead, lastUpdate := 0, joinedAt := 0 }

def wFood : Food := { id := "b", pos := { x := 500, y := 500 }, color := "#00ffd1", radius := 4 }

/-- A concrete freeplay room holding `wPlayer1` and one food item. -/
def wFreeRoom : GameRoom :=
  { id := "freeplay-main", rtype := RoomType.freeplay,
    players := [("addr1", wPlayer1)], food := [("b", wFood)],
    state := RoomState.playing, startTime := none, countdownStartTime := none,
    winner := none, worldSize := 3000, maxPlayers := 30, minPlayers := 1,
    leaderboard := none }

def wSt : ServerState :=
  { games := [("freeplay-main", wFreeRoom)],
    playerToGame := [("s1", "freeplay-main")],
    activePaidRoom := none, activeCasualRooms := [] }

/-- An alive snake for concrete states (integer coordinates). -/
def wSnakeAt (sid : String) (x y : ℚ) : Snake :=
  { id := sid, segments := [{ x := x, y := y }], angle := 0, score := 0,
    radius := 8, color := "#00ffff", isDead := false, killCount := 0 }

def wPlayerAt (pid sid : String) (x y : ℚ) : Player :=
  { id := pid, socketId := sid, address := pid, username := pid,
    profilePic := none, snake := wSnakeAt pid x y, lastUpdate := 0, joinedAt := 0 }

/-- A concrete paid room in `waiting` with two players. -/
def wPaidRoom2 : GameRoom :=
  { id := "paid-1", rtype := RoomType.paid,
    players := [("a1", wPlayerAt "a1" "s1" 300 300), ("a2", wPlayerAt "a2" "s2" 600 600)],
    food := [("b", wFood)],
    state := RoomState.waiting, startTime := none, countdownStartTime := none,
    winner := none, worldSize := 1332, maxPlayers := 5, minPlayers := 3,
    leaderboard := none }

def wStP : ServerState :=
  { games := [("paid-1", wPaidRoom2)],
    playerToGame := [("s1", "paid-1"), ("s2", "paid-1")],
    activePaidRoom := some "paid-1", activeCasualRooms := [] }

def wInfo3 : PlayerInfo := { address := "a3", username := "u3", profilePic := none }

def wStEmpty : ServerState :=
  { games := [], playerToGame := [], activePaidRoom := none, activeCasualRooms := [] }

def wInfo9 : PlayerInfo := { address := "a9", username := "u9", profilePic := none }

/-- 30 distinct players filling the freeplay room. -/
def wBigPlayers : List (String × Player) :=
  (List.range 30).map (fun i =>
    (String.mk (List.replicate (i + 1) 'p'),
      wPlayerAt (String.mk (List.replicate (i + 1) 'p'))
        (String.mk (List.replicate (i + 1) 't')) 300 300))

def wBigFreeRoom : GameRoom :=
  { id := "freeplay-main", rtype := RoomType.freeplay,
    players := wBigPlayers, food := [("b", wFood)],
    state := RoomState.playing, startTime := none, countdownStartTime := none,
    winner := none, worldSize := 3000, maxPlayers := 30, minPlayers := 1,
    leaderboard := none }

def wStBig : ServerState :=
  { games := [("freeplay-main", wBigFreeRoom)],
    playerToGame := [], activePaidRoom := none, activeCasualRooms := [] }

def wInfoQ : PlayerInfo := { address := "q", username := "q", profilePic := none }

/-- A paid room in `waiting` holding a single player. -/
def wPaidRoom1 : GameRoom :=
  { id := "paid-1", rtype := RoomType.paid,
    players := [("a1", wPlayerAt "a1" "s1" 300 300)],
    food := [("b", wFood)],
    state := RoomState.waiting, startTime := none, countdownStartTime := none,
    winner := none, worldSize := 1332, maxPlayers := 5, minPlayers := 3,
    leaderboard := none }

def wStP1 : ServerState :=
  { games := [("paid-1", wPaidRoom1)],
    playerToGame := [("s1", "paid-1")],
    activePaidRoom := some "paid-1", activeCasualRooms := [] }

/-! ## Freshness of generated food ids and food-count preservation -/

/-- The oracle's ids are pairwise distinct and do not collide with a base
set of ids (in the server these are `Math.random`-generated
`generateId()` strings, fresh with overwhelming probability; id reuse is
the only way `Map.set` could fail to add an entry). -/
def FreshIds (rng : Rng) (base : List String) : Prop :=
  (∀ i j, i ≠ j → (rng.draw i).id ≠ (rng.draw j).id) ∧
    ∀ i, (rng.draw i).id ∉ base

/-- Invariant tying a room's food keys to the original key set and the
draws consumed so far: keys are duplicate-free and each comes either from
the base set or from an already-consumed draw. -/
def FoodKeysOk (rng : Rng) (base : List String) (g : GameRoom) (k : ℕ) : Prop :=
  (mkeys g.food).Nodup ∧
    ∀ s ∈ mkeys g.food, s ∈ base ∨ ∃ j, j < k ∧ s = (rng.draw j).id

/-- A casual room in `playing` whose single-segment snake is about to hit
the wall. -/
def wCasualRoomC1 : GameRoom :=
  { id := "casual-1", rtype := RoomType.casual,
    players := [("a1", wPlayerAt "a1" "s1" 4 100)],
    food := [("b", wFood)],
    state := RoomState.playing, startTime := none, countdownStartTime := none,
    winner := none, worldSize := 2000, maxPlayers := 5, minPlayers := 3,
    leaderboard := none }

/-! ## C3 — score monotonicity -/

/-- Every player present after an operation was present before it with a
score no larger than its current one. -/
def ScoreLe (g g' : GameRoom) : Prop :=
  ∀ pid p', mget g'.players pid = some p' →
    ∃ p, mget g.players pid = some p ∧ p.snake.score ≤ p'.snake.score

/-! ## Segment preservation through the tail phases of a step -/

/-- Two rooms hold the same players with the same segment lists. -/
def SegEq (g g' : GameRoom) : Prop :=
  ∀ pid, (mget g'.players pid).map (fun p => p.snake.segments)
    = (mget g.players pid).map (fun p => p.snake.segments)

/-- Is `e` a `player-died` event for `pid`? -/
def isDiedOf (pid : String) : Ev → Bool
  | Ev.playerDied p _ _ _ => decide (p = pid)
  | _ => false

/-- The `canRespawn` flag of a death event (false for other events). -/
def evCanRespawn : Ev → Bool
  | Ev.playerDied _ _ _ c => c
  | _ => false

/-- A freeplay room holding one alive single-segment snake at (100,100). -/
def wFreeRoomAlive : GameRoom :=
  { wFreeRoom with players := [("a2", wPlayerAt "a2" "t2" 100 100)] }

/-- A freeplay room in which the head of snake `a` (at (100,100), radius
8) lies within collision range of both `b`'s segment (100,108) and `c`'s
segment (100,92), while `b` and `c` are out of range of each other. -/
def wRoomC4 : GameRoom :=
  { id := "freeplay-main", rtype := RoomType.freeplay,
    players := [("a", wPlayerAt "a" "sa" 100 100),
                ("b", wPlayerAt "b" "sb" 100 108),
                ("c", wPlayerAt "c" "sc" 100 92)],
    food := [],
    state := RoomState.playing, startTime := none, countdownStartTime := none,
    winner := none, worldSize := 3000, maxPlayers := 30, minPlayers := 1,
    leaderboard := none }

/-- A freeplay room whose single snake `a` (head (100,100), radius 8,
angle 0) sits near the food item `F` at (113,100) of radius 4: the
pre-move head is at distance 13 ≥ 12 from the food, while the post-move
head (101.8,100) is at distance 11.2 < 12. -/
def wRoomC5 : GameRoom :=
  { id := "freeplay-main", rtype := RoomType.freeplay,
    players := [("a", wPlayerAt "a" "sa" 100 100)],
    food := [("F",
      { id := "F"
        pos := { x := 113, y := 100 }
        color := "#00ffd1"
        radius := 4 })],
    state := RoomState.playing, startTime := none, countdownStartTime := none,
    winner := none, worldSize := 3000, maxPlayers := 30, minPlayers := 1,
    leaderboard := none }

/-! ## Theorems -/

/-! ## Lemmas about the `Map` model -/

theorem mkeys_nil {α : Type} : mkeys ([] : List (String × α)) = [] := rfl

theorem mkeys_cons {α : Type} (a : String) (b : α) (tl : List (String × α)) :
    mkeys ((a, b) :: tl) = a :: mkeys tl := rfl

theorem mget_mset_self {α : Type} (l : List (String × α)) (k : String) (v : α) :
    mget (mset l k v) k = some v := by
  induction l with
  | nil => simp [mset, mget]
  | cons hd tl ih =>
    obtain ⟨a, b⟩ := hd
    by_cases h : a = k
    · simp [mset, h, mget]
    · simp [mset, h, mget, ih]

theorem mget_mset_ne {α : Type} (l : List (String × α)) (k k' : String) (v : α)
    (h : k' ≠ k) : mget (mset l k v) k' = mget l k' := by
  have hne : ¬k = k' := fun hx => h hx.symm
  induction l with
  | nil => simp [mset, mget, hne]
  | cons hd tl ih =>
    obtain ⟨a, b⟩ := hd
    by_cases hh : a = k
    · subst hh
      simp [mset, mget, hne]
    · simp [mset, hh, mget, ih]

theorem mkeys_mset_mem {α : Type} (l : List (String × α)) (k : String) (v : α)
    (h : k ∈ mkeys l) : mkeys (mset l k v) = mkeys l := by
  induction l with
  | nil => simp [mkeys_nil] at h
  | cons hd tl ih =>
    obtain ⟨a, b⟩ := hd
    by_cases hh : a = k
    · subst hh
      simp [mset, mkeys_cons]
    · rw [mkeys_cons, List.mem_cons] at h
      rcases h with h | h
      · exact absurd h.symm hh
      · simp [mset, hh, mkeys_cons, ih h]

theorem mkeys_mset_not_mem {α : Type} (l : List (String × α)) (k : String) (v : α)
    (h : k ∉ mkeys l) : mkeys (mset l k v) = mkeys l ++ [k] := by
  induction l with
  | nil => simp [mset, mkeys_nil, mkeys_cons]
  | cons hd tl ih =>
    obtain ⟨a, b⟩ := hd
    rw [mkeys_cons, List.mem_cons] at h
    push_neg at h
    have h1 : ¬a = k := fun hx => h.1 hx.symm
    simp [mset, h1, mkeys_cons, ih h.2]

theorem length_mkeys {α : Type} (l : List (String × α)) :
    (mkeys l).length = l.length := by simp [mkeys]

theorem length_mset_mem {α : Type} (l : List (String × α)) (k : String) (v : α)
    (h : k ∈ mkeys l) : (mset l k v).length = l.length := by
  have h1 : (mkeys (mset l k v)).length = (mkeys l).length := by
    rw [mkeys_mset_mem l k v h]
  rwa [length_mkeys, length_mkeys] at h1

theorem length_mset_not_mem {α : Type} (l : List (String × α)) (k : String) (v : α)
    (h : k ∉ mkeys l) : (mset l k v).length = l.length + 1 := by
  have h1 : (mkeys (mset l k v)).length = (mkeys l).length + 1 := by
    rw [mkeys_mset_not_mem l k v h]; simp
  rwa [length_mkeys, length_mkeys] at h1

theorem length_mset_le {α : Type} (l : List (String × α)) (k : String) (v : α) :
    (mset l k v).length ≤ l.length + 1 := by
  by_cases h : k ∈ mkeys l
  · rw [length_mset_mem l k v h]; omega
  · rw [length_mset_not_mem l k v h]

theorem mkeys_mdel {α : Type} (l : List (String × α)) (k : String) :
    mkeys (mdel l k) = (mkeys l).erase k := by
  induction l with
  | nil => simp [mdel, mkeys_nil]
  | cons hd tl ih =>
    obtain ⟨a, b⟩ := hd
    by_cases hh : a = k
    · subst hh
      rw [mkeys_cons, List.erase_cons_head]
      simp [mdel]
    · have hba : ¬(a == k) = true := by simpa using hh
      rw [mkeys_cons, List.erase_cons_tail hba]
      simp [mdel, hh, mkeys_cons, ih]

theorem length_mdel_mem {α : Type} (l : List (String × α)) (k : String)
    (h : k ∈ mkeys l) : (mdel l k).length + 1 = l.length := by
  have h1 : (mkeys (mdel l k)).length = (mkeys l).length - 1 := by
    rw [mkeys_mdel]; exact List.length_erase_of_mem h
  have h2 : 0 < (mkeys l).length := List.length_pos_of_mem h
  rw [length_mkeys, length_mkeys] at h1
  rw [length_mkeys] at h2
  omega

theorem mem_mkeys_of_mget_isSome {α : Type} (l : List (String × α)) (k : String)
    (h : (mget l k).isSome) : k ∈ mkeys l := by
  induction l with
  | nil => simp [mget] at h
  | cons hd tl ih =>
    obtain ⟨a, b⟩ := hd
    by_cases hh : a = k
    · rw [mkeys_cons, hh]; exact List.mem_cons_self k _
    · rw [mget, if_neg hh] at h
      rw [mkeys_cons]
      exact List.mem_cons_of_mem a (ih h)

theorem mget_isSome_of_mem_mkeys {α : Type} (l : List (String × α)) (k : String)
    (h : k ∈ mkeys l) : (mget l k).isSome := by
  induction l with
  | nil => simp [mkeys_nil] at h
  | cons hd tl ih =>
    obtain ⟨a, b⟩ := hd
    by_cases hh : a = k
    · simp [mget, hh]
    · rw [mkeys_cons, List.mem_cons] at h
      rcases h with h | h
      · exact absurd h.symm hh
      · simp [mget, hh, ih h]

theorem nodup_mkeys_mset {α : Type} (l : List (String × α)) (k : String) (v : α)
    (h : (mkeys l).Nodup) : (mkeys (mset l k v)).Nodup := by
  by_cases hm : k ∈ mkeys l
  · rw [mkeys_mset_mem l k v hm]; exact h
  · rw [mkeys_mset_not_mem l k v hm]
    simpa [List.nodup_append] using ⟨h, hm⟩

theorem nodup_mkeys_mdel {α : Type} (l : List (String × α)) (k : String)
    (h : (mkeys l).Nodup) : (mkeys (mdel l k)).Nodup := by
  rw [mkeys_mdel]; exact h.erase k

theorem wdraw_id_inj (i j : ℕ) (hne : i ≠ j) : (wdraw i).id ≠ (wdraw j).id := by
  intro heq
  apply hne
  have hdata : List.replicate i 'a' = List.replicate j 'a' :=
    congrArg String.data heq
  have := congrArg List.length hdata
  simpa using this

theorem wdraw_id_ne_b (i : ℕ) : (wdraw i).id ≠ "b" := by
  intro h
  have hdata : List.replicate i 'a' = "b".data := congrArg String.data h
  rw [show "b".data = ['b'] from rfl] at hdata
  cases i with
  | zero => simp at hdata
  | succ n =>
    rw [List.replicate_succ] at hdata
    have hc : 'a' = 'b' := (List.cons.injEq _ _ _ _).mp hdata |>.1
    exact absurd hc (by decide)

/-! ## C10 — respawn replaces the snake wholesale (freeplay only) -/

/-- **C10.** For a player in the freeplay room, a successful respawn
replaces the snake wholesale with a fresh 10-segment snake trailing
horizontally from a new spawn position, with angle 0, score 0, radius 8
and kill count 0 — the previous score and kill count are discarded — and
a respawn request has no effect for players in paid or casual rooms. -/
theorem C10_respawn_characterization
    (rng : Rng) (st : ServerState) (socketId : String) (username : Option String)
    (k : ℕ) (gameId : String) (g : GameRoom) (pq : String × Player)
    (h1 : mget st.playerToGame socketId = some gameId)
    (h2 : mget st.games gameId = some g) :
    (g.rtype = RoomType.freeplay →
      g.players.find? (fun q => q.2.socketId = socketId) = some pq →
      ∃ g1 p1,
        mget (respawnHandler rng st socketId username k).1.games gameId = some g1 ∧
        mget g1.players pq.2.id = some p1 ∧
        p1.snake =
          freshSnake pq.2.id (generateStartPosition g.worldSize (rng.draw k))
            g.players.length ∧
        p1.snake.segments.length = 10 ∧
        p1.snake.angle = 0 ∧ p1.snake.score = 0 ∧ p1.snake.radius = 8 ∧
        p1.snake.killCount = 0 ∧ p1.snake.isDead = false) ∧
    (g.rtype ≠ RoomType.freeplay →
      respawnHandler rng st socketId username k = (st, k, [])) := by
  constructor
  · intro hA hpq
    simp only [respawnHandler, h1, h2, hA]
    simp only [hpq]
    refine ⟨_, _, mget_mset_self _ _ _, mget_mset_self _ _ _, rfl, ?_, rfl, rfl, rfl, rfl, rfl⟩
    simp only [freshSnake]
    rw [List.length_map, List.length_range]
  · intro hB
    simp only [respawnHandler, h1, h2]
    rw [if_pos hB]

/-- Witness for C10: in the concrete freeplay state `wSt`, respawning the
dead player `addr1` (previous score 5, 2 kills) yields a stored snake
with score 0. -/
theorem C10_respawn_characterization_witness :
    ∃ g1 p1,
      mget (respawnHandler wrng wSt "s1" none 0).1.games "freeplay-main" = some g1 ∧
      mget g1.players "addr1" = some p1 ∧ p1.snake.score = 0 := by
  obtain ⟨hA, _⟩ :=
    C10_respawn_characterization wrng wSt "s1" none 0 "freeplay-main" wFreeRoom
      ("addr1", wPlayer1) rfl rfl
  obtain ⟨g1, p1, e1, e2, e3, _⟩ := hA rfl rfl
  exact ⟨g1, p1, e1, e2, by rw [e3]; rfl⟩

theorem joinedPlayer_id (rng : Rng) (g : GameRoom) (socketId : String)
    (info : PlayerInfo) (now : ℤ) (k : ℕ) :
    (joinedPlayer rng g socketId info now k).id = info.address := rfl

theorem joinedRoom_players (rng : Rng) (g : GameRoom) (gameId socketId : String)
    (info : PlayerInfo) (now : ℤ) (k : ℕ) :
    (joinedRoom rng g gameId socketId info now k).1.players
      = mset g.players info.address (joinedPlayer rng g socketId info now k) := by
  simp only [joinedRoom, joinedPlayer_id]
  split <;> simp [startCountdown]

theorem joinedRoom_maxPlayers (rng : Rng) (g : GameRoom) (gameId socketId : String)
    (info : PlayerInfo) (now : ℤ) (k : ℕ) :
    (joinedRoom rng g gameId socketId info now k).1.maxPlayers = g.maxPlayers := by
  simp only [joinedRoom, joinedPlayer_id]
  split <;> simp [startCountdown]

/-! ## C8 — countdown entry and the one-shot expiry check -/

/-- **C8.** A non-freeplay room in `waiting` enters `countdown` exactly
when a join brings its player count to at least `minPlayers` (arming one
30 000 ms one-shot check, and arming none otherwise); a join to a room no
longer `waiting` changes nothing about its state and arms nothing; and
when the armed check fires it transitions the room to `playing` only if
the room is still in `countdown` with at least `minPlayers` players —
otherwise nothing happens and no new check is armed, so a room whose
player count dropped below `minPlayers` before the deadline stays in
`countdown` past the deadline. -/
theorem C8_countdown_lifecycle
    (rng : Rng) (st : ServerState) (g : GameRoom) (gameId socketId : String)
    (info : PlayerInfo) (now now' : ℤ) (k : ℕ)
    (hty : g.rtype ≠ RoomType.freeplay) :
    (g.state = RoomState.waiting →
      ∃ g', mget (joinGame rng st g gameId socketId info now k).1.games gameId = some g' ∧
        (g'.state = RoomState.countdown ↔ g'.players.length ≥ g.minPlayers) ∧
        (joinGame rng st g gameId socketId info now k).2.2.1 =
          (if g'.players.length ≥ g.minPlayers then [Sched.countdownCheck gameId 30000]
           else [])) ∧
    (g.state ≠ RoomState.waiting →
      ∃ g', mget (joinGame rng st g gameId socketId info now k).1.games gameId = some g' ∧
        g'.state = g.state ∧
        (joinGame rng st g gameId socketId info now k).2.2.1 = []) ∧
    (∀ g2 : GameRoom,
      (countdownCheckTask g2 now').2.1 = [] ∧
      (g2.state = RoomState.countdown → g2.players.length ≥ g2.minPlayers →
        (countdownCheckTask g2 now').1 =
          { g2 with state := RoomState.playing, startTime := some now' }) ∧
      (g2.state = RoomState.countdown → g2.players.length < g2.minPlayers →
        (countdownCheckTask g2 now').1 = g2)) := by
  have hj : mget (joinGame rng st g gameId socketId info now k).1.games gameId
      = some (joinedRoom rng g gameId socketId info now k).1 := by
    simp only [joinGame]
    exact mget_mset_self _ _ _
  have hsch : (joinGame rng st g gameId socketId info now k).2.2.1
      = (joinedRoom rng g gameId socketId info now k).2.1 := rfl
  refine ⟨?_, ?_, ?_⟩
  · intro hw
    refine ⟨(joinedRoom rng g gameId socketId info now k).1, hj, ?_, ?_⟩ <;>
      by_cases hn :
        (mset g.players info.address (joinedPlayer rng g socketId info now k)).length
          ≥ g.minPlayers <;>
      simp [joinedRoom, joinedPlayer_id, startCountdown, hty, hw, hn, hsch]
  · intro hnw
    refine ⟨(joinedRoom rng g gameId socketId info now k).1, hj, ?_, ?_⟩ <;>
      simp [joinedRoom, joinedPlayer_id, startCountdown, hnw, hsch]
  · intro g2
    refine ⟨?_, ?_, ?_⟩
    · by_cases h : g2.state = RoomState.countdown ∧ g2.players.length ≥ g2.minPlayers
      · simp [countdownCheckTask, h, startGame]
      · simp [countdownCheckTask, h]
    · intro h1 h2
      simp [countdownCheckTask, h1, h2, startGame]
    · intro h1 h2
      have hne : ¬(g2.state = RoomState.countdown ∧ g2.players.length ≥ g2.minPlayers) := by
        intro hc
        omega
      simp [countdownCheckTask, hne]

/-- Witness for C8: joining a third player to the concrete two-player
paid room in `waiting` puts the stored room into `countdown`. -/
theorem C8_countdown_lifecycle_witness :
    ∃ g', mget (joinGame wrng wStP wPaidRoom2 "paid-1" "s3" wInfo3 0 0).1.games "paid-1"
        = some g' ∧ g'.state = RoomState.countdown := by
  obtain ⟨hA, _, _⟩ :=
    C8_countdown_lifecycle wrng wStP wPaidRoom2 "paid-1" "s3" wInfo3 0 0 0 (by decide)
  obtain ⟨g', h1, h2, _⟩ := hA rfl
  have h1' : mget (joinGame wrng wStP wPaidRoom2 "paid-1" "s3" wInfo3 0 0).1.games "paid-1"
      = some (joinedRoom wrng wPaidRoom2 "paid-1" "s3" wInfo3 0 0).1 := by
    simp only [joinGame]
    exact mget_mset_self _ _ _
  have hg : g' = (joinedRoom wrng wPaidRoom2 "paid-1" "s3" wInfo3 0 0).1 :=
    Option.some.inj (h1 ▸ h1')
  refine ⟨g', h1, h2.mpr ?_⟩
  rw [hg, joinedRoom_players, length_mset_not_mem]
  · decide
  · decide

/-! ## C2 — join capacity -/

theorem foodFill_players (rng : Rng) (l : List ℕ) (acc : GameRoom × ℕ) :
    (l.foldl (foodFillStep rng) acc).1.players = acc.1.players := by
  induction l generalizing acc with
  | nil => rfl
  | cons a tl ih => rw [List.foldl_cons, ih]; rfl

theorem foodFill_maxPlayers (rng : Rng) (l : List ℕ) (acc : GameRoom × ℕ) :
    (l.foldl (foodFillStep rng) acc).1.maxPlayers = acc.1.maxPlayers := by
  induction l generalizing acc with
  | nil => rfl
  | cons a tl ih => rw [List.foldl_cons, ih]; rfl

theorem createGameRoom_players (rng : Rng) (gameId : String) (ty : RoomType) (k : ℕ) :
    (createGameRoom rng gameId ty k).1.players = [] := by
  simp only [createGameRoom]
  rw [foodFill_players]

theorem createGameRoom_maxPlayers (rng : Rng) (gameId : String) (ty : RoomType) (k : ℕ) :
    (createGameRoom rng gameId ty k).1.maxPlayers = roomMaxPlayers ty := by
  simp only [createGameRoom]
  rw [foodFill_maxPlayers]

theorem mget_joinGame_games_self (rng : Rng) (st : ServerState) (g : GameRoom)
    (gameId socketId : String) (info : PlayerInfo) (now : ℤ) (k : ℕ) :
    mget (joinGame rng st g gameId socketId info now k).1.games gameId
      = some (joinedRoom rng g gameId socketId info now k).1 := by
  simp only [joinGame]
  exact mget_mset_self _ _ _

theorem joinedRoom_length_le (rng : Rng) (g : GameRoom) (gameId socketId : String)
    (info : PlayerInfo) (now : ℤ) (k : ℕ) :
    (joinedRoom rng g gameId socketId info now k).1.players.length
      ≤ g.players.length + 1 := by
  rw [joinedRoom_players]
  exact length_mset_le _ _ _

/-- **C2 (amended).** Every successful `find-game` resolution to a paid
or casual room leaves the joined room with `players.length ≤ maxPlayers`;
the freeplay path performs no capacity check (see the counterexample). -/
theorem C2_paid_casual_capacity
    (rng : Rng) (st : ServerState) (ty : RoomType) (socketId : String)
    (info : PlayerInfo) (now : ℤ) (k : ℕ)
    (hty : ty = RoomType.paid ∨ ty = RoomType.casual)
    (st' : ServerState) (k' : ℕ) (gid : String) (scheds : List Sched) (evs : List Ev)
    (h : findGame rng st ty socketId info now k = FindResult.joined st' k' gid scheds evs)
    (g' : GameRoom) (hg : mget st'.games gid = some g') :
    g'.players.length ≤ g'.maxPlayers := by
  have key : ∀ (g0 : GameRoom) (gid0 : String) (k0 : ℕ),
      g0.players.length < g0.maxPlayers →
      (joinedRoom rng g0 gid0 socketId info now k0).1.players.length
        ≤ (joinedRoom rng g0 gid0 socketId info now k0).1.maxPlayers := by
    intro g0 gid0 k0 hlt
    calc (joinedRoom rng g0 gid0 socketId info now k0).1.players.length
        ≤ g0.players.length + 1 := joinedRoom_length_le _ _ _ _ _ _ _
      _ ≤ g0.maxPlayers := hlt
      _ = (joinedRoom rng g0 gid0 socketId info now k0).1.maxPlayers :=
          (joinedRoom_maxPlayers _ _ _ _ _ _ _).symm
  have keyNew : ∀ (gid0 : String) (ty0 : RoomType) (k0 k1 : ℕ),
      (joinedRoom rng (createGameRoom rng gid0 ty0 k0).1 gid0 socketId info now k1).1.players.length
        ≤ (joinedRoom rng (createGameRoom rng gid0 ty0 k0).1 gid0 socketId info now k1).1.maxPlayers := by
    intro gid0 ty0 k0 k1
    calc (joinedRoom rng (createGameRoom rng gid0 ty0 k0).1 gid0 socketId info now k1).1.players.length
        ≤ (createGameRoom rng gid0 ty0 k0).1.players.length + 1 :=
          joinedRoom_length_le _ _ _ _ _ _ _
      _ = 1 := by rw [createGameRoom_players]; rfl
      _ ≤ roomMaxPlayers ty0 := by cases ty0 <;> decide
      _ = (joinedRoom rng (createGameRoom rng gid0 ty0 k0).1 gid0 socketId info now k1).1.maxPlayers := by
          rw [joinedRoom_maxPlayers, createGameRoom_maxPlayers]
  rcases hty with hty | hty
  · subst hty
    simp only [findGame] at h
    split at h
    · rename_i pid heq
      split at h
      · rename_i eg heg
        split at h
        · rename_i hcond
          obtain ⟨hst, -, hgid, -, -⟩ := FindResult.joined.inj h
          subst hgid
          subst hst
          rw [mget_joinGame_games_self] at hg
          obtain rfl := Option.some.inj hg
          exact key eg pid k hcond.2
        · exact absurd h (by simp)
      · exact absurd h (by simp)
    · obtain ⟨hst, -, hgid, -, -⟩ := FindResult.joined.inj h
      subst hgid
      subst hst
      rw [mget_joinGame_games_self] at hg
      obtain rfl := Option.some.inj hg
      exact keyNew _ _ _ _
  · subst hty
    simp only [findGame] at h
    split at h
    · rename_i rid hfind
      have hjoin : casualJoinable st rid = true := List.find?_some hfind
      split at h
      · rename_i room heg
        obtain ⟨hst, -, hgid, -, -⟩ := FindResult.joined.inj h
        subst hgid
        subst hst
        rw [mget_joinGame_games_self] at hg
        obtain rfl := Option.some.inj hg
        have hcap : room.players.length < room.maxPlayers := by
          unfold casualJoinable at hjoin
          rw [heg] at hjoin
          exact ((by simpa [Bool.and_eq_true] using hjoin : room.state = RoomState.waiting ∧ room.players.length < room.maxPlayers)).2
        exact key room rid k hcap
      · exact absurd h (by simp)
    · split at h
      · obtain ⟨hst, -, hgid, -, -⟩ := FindResult.joined.inj h
        subst hgid
        subst hst
        rw [mget_joinGame_games_self] at hg
        obtain rfl := Option.some.inj hg
        exact keyNew _ _ _ _
      · exact absurd h (by simp)

/-- Witness for C2: resolving a paid `find-game` request against an empty
registry creates a paid room and joins it within capacity. -/
theorem C2_paid_casual_capacity_witness :
    ∃ st' k' scheds evs g',
      findGame wrng wStEmpty RoomType.paid "s9" wInfo9 0 0
        = FindResult.joined st' k' ("paid-" ++ (wdraw 0).id) scheds evs ∧
      mget st'.games ("paid-" ++ (wdraw 0).id) = some g' ∧
      g'.players.length ≤ g'.maxPlayers := by
  refine ⟨_, _, _, _, _, rfl, mget_joinGame_games_self _ _ _ _ _ _ _ _, ?_⟩
  exact C2_paid_casual_capacity wrng wStEmpty RoomType.paid "s9" wInfo9 0 0 (Or.inl rfl)
    _ _ _ _ _ rfl _ (mget_joinGame_games_self _ _ _ _ _ _ _ _)

/-- Counterexample for C2 as stated: a `find-game` request resolved to
the freeplay room when it already holds 30 players succeeds with no
capacity check and leaves the room with 31 players — above its
`maxPlayers` of 30. -/
theorem C2_counterexample :
    ∃ st' k' scheds evs g',
      findGame wrng wStBig RoomType.freeplay "sq" wInfoQ 0 0
        = FindResult.joined st' k' "freeplay-main" scheds evs ∧
      mget st'.games "freeplay-main" = some g' ∧
      g'.players.length = 31 ∧ g'.maxPlayers = 30 := by
  refine ⟨_, _, _, _, _, rfl, mget_joinGame_games_self _ _ _ _ _ _ _ _, ?_, ?_⟩
  · rw [joinedRoom_players, length_mset_not_mem]
    · decide
    · decide
  · rw [joinedRoom_maxPlayers]
    rfl

/-! ## C9 — room teardown and slot release -/

/-- **C9 (amended).** `endGame` — reached either from the win condition
(which sets `ended` exactly when at most one player is alive) or from
`handlePlayerLeave` on a room that just became empty (whatever its state)
— releases the room's paid/casual slot *immediately* and only defers the
registry deletion by the fixed 5 000 ms grace delay; the deferred task
then removes the room from the registry. -/
theorem C9_teardown_characterization (st : ServerState) (gid : String)
    (ty : RoomType) (g : GameRoom) :
    ((endGame st gid ty).2 = [Sched.deleteRoomAt gid 5000]) ∧
    ((endGame st gid ty).1.games = st.games) ∧
    (ty = RoomType.paid → (endGame st gid ty).1.activePaidRoom = none) ∧
    (ty = RoomType.casual →
      (endGame st gid ty).1.activeCasualRooms = st.activeCasualRooms.erase gid) ∧
    ((deleteRoomTask st gid).games = mdel st.games gid) ∧
    ((checkWinCondition g).2.2 = true ↔
      (g.players.filter (fun q => !q.2.snake.isDead)).length ≤ 1) ∧
    ((g.players.filter (fun q => !q.2.snake.isDead)).length ≤ 1 →
      (checkWinCondition g).1.state = RoomState.ended) := by
  refine ⟨?_, ?_, ?_, ?_, rfl, ?_, ?_⟩
  · cases ty <;> rfl
  · cases ty <;> rfl
  · intro h; subst h; rfl
  · intro h; subst h; rfl
  · constructor
    · intro h
      by_contra hc
      simp [checkWinCondition, hc] at h
    · intro h
      simp [checkWinCondition, h]
  · intro h
    simp [checkWinCondition, h]

/-- Counterexample for C9 as stated: when the only player of a paid room
still in `waiting` leaves, the room's deletion is scheduled and the paid
slot is released immediately even though the room never reached `ended`
— so deletion is not conditional on the `ended` state, and the slot
release does not wait for the grace delay. -/
theorem C9_counterexample :
    (handlePlayerLeave wrng wStP1 "s1" "paid-1" 0).2.2.1
        = [Sched.deleteRoomAt "paid-1" 5000] ∧
    (handlePlayerLeave wrng wStP1 "s1" "paid-1" 0).1.activePaidRoom = none ∧
    ((mget (handlePlayerLeave wrng wStP1 "s1" "paid-1" 0).1.games "paid-1").map
        (fun r => r.state)) = some RoomState.waiting := by
  refine ⟨?_, ?_, ?_⟩ <;> with_unfolding_all rfl

/-- Witness for C9 (amended): the characterization applied to the
concrete paid room. -/
theorem C9_teardown_characterization_witness :
    (endGame wStP1 "paid-1" RoomType.paid).2 = [Sched.deleteRoomAt "paid-1" 5000] ∧
    (endGame wStP1 "paid-1" RoomType.paid).1.activePaidRoom = none ∧
    (deleteRoomTask wStP1 "paid-1").games = mdel wStP1.games "paid-1" := by
  obtain ⟨h1, -, h3, -, h5, -, -⟩ :=
    C9_teardown_characterization wStP1 "paid-1" RoomType.paid wPaidRoom1
  exact ⟨h1, h3 rfl, h5⟩

/-! ## Preservation toolkit for the simulation primitives -/

theorem setSnake_food (g : GameRoom) (pid : String) (s : Snake) :
    (setSnake g pid s).food = g.food := by
  unfold setSnake
  cases mget g.players pid <;> rfl

theorem setSnake_rtype (g : GameRoom) (pid : String) (s : Snake) :
    (setSnake g pid s).rtype = g.rtype := by
  unfold setSnake
  cases mget g.players pid <;> rfl

theorem setSnake_worldSize (g : GameRoom) (pid : String) (s : Snake) :
    (setSnake g pid s).worldSize = g.worldSize := by
  unfold setSnake
  cases mget g.players pid <;> rfl

theorem setSnake_state (g : GameRoom) (pid : String) (s : Snake) :
    (setSnake g pid s).state = g.state := by
  unfold setSnake
  cases mget g.players pid <;> rfl

theorem setSnake_mget_ne (g : GameRoom) (pid pid' : String) (s : Snake)
    (h : pid' ≠ pid) : mget (setSnake g pid s).players pid' = mget g.players pid' := by
  unfold setSnake
  cases mget g.players pid with
  | none => rfl
  | some p => exact mget_mset_ne _ _ _ _ h

theorem setSnake_mget_self (g : GameRoom) (pid : String) (s : Snake) (p : Player)
    (h : mget g.players pid = some p) :
    mget (setSnake g pid s).players pid = some { p with snake := s } := by
  unfold setSnake
  rw [h]
  exact mget_mset_self _ _ _

theorem checkWinCondition_players (g : GameRoom) :
    (checkWinCondition g).1.players = g.players := by
  unfold checkWinCondition
  dsimp only
  split <;> rfl

theorem checkWinCondition_food (g : GameRoom) :
    (checkWinCondition g).1.food = g.food := by
  unfold checkWinCondition
  dsimp only
  split <;> rfl

theorem checkWinCondition_rtype (g : GameRoom) :
    (checkWinCondition g).1.rtype = g.rtype := by
  unfold checkWinCondition
  dsimp only
  split <;> rfl

theorem checkWinCondition_worldSize (g : GameRoom) :
    (checkWinCondition g).1.worldSize = g.worldSize := by
  unfold checkWinCondition
  dsimp only
  split <;> rfl

theorem dropFoodStep_players (rng : Rng) (acc : GameRoom × ℕ × List Food)
    (iseg : ℕ × Pos) : (dropFoodStep rng acc iseg).1.players = acc.1.players := by
  unfold dropFoodStep
  split <;> rfl

theorem dropFoodStep_rtype (rng : Rng) (acc : GameRoom × ℕ × List Food)
    (iseg : ℕ × Pos) : (dropFoodStep rng acc iseg).1.rtype = acc.1.rtype := by
  unfold dropFoodStep
  split <;> rfl

theorem dropFold_players (rng : Rng) (l : List (ℕ × Pos)) :
    ∀ acc : GameRoom × ℕ × List Food,
      (l.foldl (dropFoodStep rng) acc).1.players = acc.1.players := by
  induction l with
  | nil => intro acc; rfl
  | cons a tl ih =>
    intro acc
    rw [List.foldl_cons, ih, dropFoodStep_players]

theorem dropFold_rtype (rng : Rng) (l : List (ℕ × Pos)) :
    ∀ acc : GameRoom × ℕ × List Food,
      (l.foldl (dropFoodStep rng) acc).1.rtype = acc.1.rtype := by
  induction l with
  | nil => intro acc; rfl
  | cons a tl ih =>
    intro acc
    rw [List.foldl_cons, ih, dropFoodStep_rtype]

theorem dropFoodFromSnake_players (rng : Rng) (g : GameRoom) (p : Player) (k : ℕ) :
    (dropFoodFromSnake rng g p k).1.players = g.players := by
  unfold dropFoodFromSnake
  rw [dropFold_players]

theorem dropFoodFromSnake_rtype (rng : Rng) (g : GameRoom) (p : Player) (k : ℕ) :
    (dropFoodFromSnake rng g p k).1.rtype = g.rtype := by
  unfold dropFoodFromSnake
  rw [dropFold_rtype]

theorem replaceEatenStep_players (rng : Rng) (pid : String) (score : ℤ)
    (acc : GameRoom × ℕ × List Ev) (fid : String) :
    (replaceEatenStep rng pid score acc fid).1.players = acc.1.players := rfl

theorem replaceEaten_players (rng : Rng) (pid : String) (score : ℤ)
    (eaten : List String) :
    ∀ st : GameRoom × ℕ × List Ev,
      (replaceEaten rng pid score eaten st).1.players = st.1.players := by
  induction eaten with
  | nil => intro st; rfl
  | cons fid tl ih =>
    intro st
    unfold replaceEaten at ih ⊢
    rw [List.foldl_cons, ih, replaceEatenStep_players]

theorem replaceEaten_rtype (rng : Rng) (pid : String) (score : ℤ)
    (eaten : List String) :
    ∀ st : GameRoom × ℕ × List Ev,
      (replaceEaten rng pid score eaten st).1.rtype = st.1.rtype := by
  induction eaten with
  | nil => intro st; rfl
  | cons fid tl ih =>
    intro st
    unfold replaceEaten at ih ⊢
    rw [List.foldl_cons, ih]
    rfl

theorem replaceEaten_worldSize (rng : Rng) (pid : String) (score : ℤ)
    (eaten : List String) :
    ∀ st : GameRoom × ℕ × List Ev,
      (replaceEaten rng pid score eaten st).1.worldSize = st.1.worldSize := by
  induction eaten with
  | nil => intro st; rfl
  | cons fid tl ih =>
    intro st
    unfold replaceEaten at ih ⊢
    rw [List.foldl_cons, ih]
    rfl

/-! ## The food-collision scan: characterization -/

/-- The food scan appends to the eaten list a sublist of the food keys,
adds 5 to the score per item eaten, appends one duplicate of the tail per
item eaten, and keeps the radius capped at 20. -/
theorem eatScan_spec (head : Pos) (food : List (String × Food)) :
    ∀ st : List String × ℤ × ℚ × List Pos,
      ∃ ex : List String,
        (eatScan head food st).1 = st.1 ++ ex ∧
        ex.Sublist (food.map Prod.fst) ∧
        (eatScan head food st).2.1 = st.2.1 + 5 * ex.length ∧
        (eatScan head food st).2.2.2
          = st.2.2.2 ++ List.replicate ex.length (st.2.2.2.getLastD default) ∧
        (st.2.2.1 ≤ 20 → (eatScan head food st).2.2.1 ≤ 20) := by
  induction food with
  | nil =>
    intro st
    refine ⟨[], by simp [eatScan], List.nil_sublist _, by simp [eatScan],
      by simp [eatScan], fun h => by simpa [eatScan] using h⟩
  | cons kv tl ih =>
    intro st
    have hcons : eatScan head (kv :: tl) st = eatScan head tl (eatStep head st kv) := by
      unfold eatScan
      rw [List.foldl_cons]
    by_cases hc : distLtB head kv.2.pos (st.2.2.1 + kv.2.radius) = true
    · have hstep : eatStep head st kv
          = (st.1 ++ [kv.1], st.2.1 + 5, min 20 (st.2.2.1 * 1.005),
              st.2.2.2 ++ [st.2.2.2.getLastD default]) := by
        unfold eatStep
        rw [if_pos hc]
      obtain ⟨ex, h1, h2, h3, h4, h5⟩ := ih (eatStep head st kv)
      refine ⟨kv.1 :: ex, ?_, ?_, ?_, ?_, ?_⟩
      · rw [hcons, h1, hstep]
        simp
      · exact List.Sublist.cons₂ _ (h2.trans (by simp))
      · rw [hcons, h3, hstep]
        simp only [List.length_cons]
        push_cast
        ring
      · rw [hcons, h4, hstep]
        simp [List.getLastD_concat, List.replicate_succ, List.append_assoc]
      · intro hle
        rw [hcons]
        apply h5
        rw [hstep]
        exact min_le_left _ _
    · have hstep : eatStep head st kv = st := by
        unfold eatStep
        rw [if_neg hc]
      obtain ⟨ex, h1, h2, h3, h4, h5⟩ := ih (eatStep head st kv)
      rw [hstep] at h1 h3 h4 h5
      exact ⟨ex, by rw [hcons, hstep]; exact h1,
        h2.trans (List.sublist_cons_self _ _),
        by rw [hcons, hstep]; exact h3,
        by rw [hcons, hstep]; exact h4,
        fun h => by rw [hcons, hstep]; exact h5 h⟩

theorem FoodKeysOk.mono {rng : Rng} {base : List String} {g : GameRoom} {k k' : ℕ}
    (h : FoodKeysOk rng base g k) (hk : k ≤ k') : FoodKeysOk rng base g k' := by
  refine ⟨h.1, fun s hs => ?_⟩
  rcases h.2 s hs with hb | ⟨j, hj, he⟩
  · exact Or.inl hb
  · exact Or.inr ⟨j, lt_of_lt_of_le hj hk, he⟩

theorem fresh_not_mem {rng : Rng} {base : List String} {g : GameRoom} {k : ℕ}
    (hfresh : FreshIds rng base) (hok : FoodKeysOk rng base g k) :
    (rng.draw k).id ∉ mkeys g.food := by
  intro hmem
  rcases hok.2 _ hmem with hb | ⟨j, hj, he⟩
  · exact hfresh.2 k hb
  · exact hfresh.1 k j (by omega) he

theorem replaceEatenStep_food_spec (rng : Rng) (pid : String) (score : ℤ)
    (acc : GameRoom × ℕ × List Ev) (fid : String) (base : List String)
    (hfresh : FreshIds rng base)
    (hok : FoodKeysOk rng base acc.1 acc.2.1)
    (hmem : fid ∈ mkeys acc.1.food) :
    (replaceEatenStep rng pid score acc fid).1.food.length = acc.1.food.length ∧
    mkeys (replaceEatenStep rng pid score acc fid).1.food
      = (mkeys acc.1.food).erase fid ++ [(rng.draw acc.2.1).id] ∧
    (replaceEatenStep rng pid score acc fid).2.1 = acc.2.1 + 1 ∧
    FoodKeysOk rng base (replaceEatenStep rng pid score acc fid).1
      (replaceEatenStep rng pid score acc fid).2.1 := by
  have hk : (replaceEatenStep rng pid score acc fid).2.1 = acc.2.1 + 1 := rfl
  have hdel : mkeys (mdel acc.1.food fid) = (mkeys acc.1.food).erase fid :=
    mkeys_mdel _ _
  have hfr : (rng.draw acc.2.1).id ∉ mkeys (mdel acc.1.food fid) := by
    rw [hdel]
    intro hmem2
    exact fresh_not_mem hfresh hok ((List.erase_sublist _ _).mem hmem2)
  have hkeys : mkeys (replaceEatenStep rng pid score acc fid).1.food
      = (mkeys acc.1.food).erase fid ++ [(rng.draw acc.2.1).id] := by
    show mkeys (mset (mdel acc.1.food fid) (rng.draw acc.2.1).id _) = _
    rw [mkeys_mset_not_mem _ _ _ hfr, hdel]
  refine ⟨?_, hkeys, rfl, ?_, ?_⟩
  · show (mset (mdel acc.1.food fid) (rng.draw acc.2.1).id _).length = _
    rw [length_mset_not_mem _ _ _ hfr]
    have := length_mdel_mem acc.1.food fid hmem
    omega
  · rw [hkeys]
    simp only [List.nodup_append, List.nodup_cons, List.nodup_nil]
    refine ⟨hok.1.erase fid, by simp, ?_⟩
    intro s hs
    simp only [List.mem_singleton]
    intro he
    subst he
    exact fresh_not_mem hfresh hok ((List.erase_sublist _ _).mem hs)
  · intro s hs
    rw [hkeys] at hs
    rcases List.mem_append.mp hs with hs | hs
    · rcases hok.2 s ((List.erase_sublist _ _).mem hs) with hb | ⟨j, hj, he⟩
      · exact Or.inl hb
      · exact Or.inr ⟨j, by rw [hk]; omega, he⟩
    · exact Or.inr ⟨acc.2.1, by rw [hk]; omega, List.mem_singleton.mp hs⟩

theorem replaceEaten_food_spec (rng : Rng) (pid : String) (score : ℤ)
    (base : List String) (hfresh : FreshIds rng base) :
    ∀ (eaten : List String) (st : GameRoom × ℕ × List Ev),
      FoodKeysOk rng base st.1 st.2.1 →
      eaten.Nodup →
      (∀ s ∈ eaten, s ∈ mkeys st.1.food) →
      (replaceEaten rng pid score eaten st).1.food.length = st.1.food.length ∧
      FoodKeysOk rng base (replaceEaten rng pid score eaten st).1
        (replaceEaten rng pid score eaten st).2.1 ∧
      st.2.1 ≤ (replaceEaten rng pid score eaten st).2.1 := by
  intro eaten
  induction eaten with
  | nil =>
    intro st hok hnd hmem
    exact ⟨rfl, hok, le_refl _⟩
  | cons fid tl ih =>
    intro st hok hnd hmem
    have hcons : replaceEaten rng pid score (fid :: tl) st
        = replaceEaten rng pid score tl (replaceEatenStep rng pid score st fid) := by
      unfold replaceEaten
      rw [List.foldl_cons]
    obtain ⟨e1, e2, e3, e4⟩ :=
      replaceEatenStep_food_spec rng pid score st fid base hfresh hok
        (hmem fid (List.mem_cons_self _ _))
    obtain ⟨hfid, hndtl⟩ := List.nodup_cons.mp hnd
    have hrest : ∀ s ∈ tl, s ∈ mkeys (replaceEatenStep rng pid score st fid).1.food := by
      intro s hs
      rw [e2]
      apply List.mem_append_left
      rw [List.mem_erase_of_ne (fun he => hfid (by rw [← he]; exact hs))]
      exact hmem s (List.mem_cons_of_mem _ hs)
    obtain ⟨r1, r2, r3⟩ := ih (replaceEatenStep rng pid score st fid) e4 hndtl hrest
    refine ⟨?_, ?_, ?_⟩
    · rw [hcons, r1, e1]
    · rw [hcons]
      exact r2
    · rw [hcons]
      calc st.2.1 ≤ (replaceEatenStep rng pid score st fid).2.1 := by rw [e3]; omega
        _ ≤ _ := r3

theorem FoodKeysOk.of_food_eq {rng : Rng} {base : List String} {g g' : GameRoom}
    {k : ℕ} (h : FoodKeysOk rng base g k) (he : g'.food = g.food) :
    FoodKeysOk rng base g' k := by
  unfold FoodKeysOk at h ⊢
  rw [he]
  exact h

/-! ## The collision phase touches no food in freeplay -/

theorem collisionStep_freeplay (rng : Rng) (pid : String) (head : Pos)
    (acc : GameRoom × ℕ × List Ev) (oid : String)
    (hty : acc.1.rtype = RoomType.freeplay) :
    (collisionStep rng pid head acc oid).1.food = acc.1.food ∧
    (collisionStep rng pid head acc oid).2.1 = acc.2.1 ∧
    (collisionStep rng pid head acc oid).1.rtype = RoomType.freeplay := by
  unfold collisionStep
  repeat' split
  all_goals first
    | exact ⟨rfl, rfl, hty⟩
    | (rename_i hne; exact absurd hty hne)
    | exact ⟨by rw [setSnake_food, setSnake_food], rfl,
        by rw [setSnake_rtype, setSnake_rtype]; exact hty⟩

theorem collisionPhase_freeplay (rng : Rng) (pid : String) (head : Pos)
    (pids : List String) :
    ∀ acc : GameRoom × ℕ × List Ev, acc.1.rtype = RoomType.freeplay →
      (collisionPhase rng pids pid head acc).1.food = acc.1.food ∧
      (collisionPhase rng pids pid head acc).2.1 = acc.2.1 ∧
      (collisionPhase rng pids pid head acc).1.rtype = RoomType.freeplay := by
  induction pids with
  | nil => intro acc h; exact ⟨rfl, rfl, h⟩
  | cons oid tl ih =>
    intro acc h
    have hcons : collisionPhase rng (oid :: tl) pid head acc
        = collisionPhase rng tl pid head (collisionStep rng pid head acc oid) := by
      unfold collisionPhase
      rw [List.foldl_cons]
    obtain ⟨s1, s2, s3⟩ := collisionStep_freeplay rng pid head acc oid h
    obtain ⟨r1, r2, r3⟩ := ih _ s3
    exact ⟨by rw [hcons, r1, s1], by rw [hcons, r2, s2], by rw [hcons]; exact r3⟩

/-- The composite tail of a freeplay step after a successful move:
tail-replacement of eaten food then the collision scan, which together
keep the food count unchanged (given fresh generated ids). -/
theorem composite_freeplay_food (rng : Rng) (base : List String) (pids : List String)
    (hfresh : FreshIds rng base) (g : GameRoom) (k : ℕ) (evs : List Ev) (pid : String)
    (snake1 : Snake) (eaten : List String) (score1 : ℤ) (head : Pos)
    (hty : g.rtype = RoomType.freeplay) (hok : FoodKeysOk rng base g k)
    (hsub : eaten.Sublist (mkeys g.food)) :
    (collisionPhase rng pids pid head
        (replaceEaten rng pid score1 eaten (setSnake g pid snake1, k, evs))).1.food.length
      = g.food.length ∧
    FoodKeysOk rng base
      (collisionPhase rng pids pid head
        (replaceEaten rng pid score1 eaten (setSnake g pid snake1, k, evs))).1
      (collisionPhase rng pids pid head
        (replaceEaten rng pid score1 eaten (setSnake g pid snake1, k, evs))).2.1 ∧
    k ≤ (collisionPhase rng pids pid head
        (replaceEaten rng pid score1 eaten (setSnake g pid snake1, k, evs))).2.1 ∧
    (collisionPhase rng pids pid head
        (replaceEaten rng pid score1 eaten (setSnake g pid snake1, k, evs))).1.rtype
      = RoomType.freeplay := by
  have hok1 : FoodKeysOk rng base (setSnake g pid snake1, k, evs).1 (setSnake g pid snake1, k, evs).2.1 :=
    hok.of_food_eq (setSnake_food _ _ _)
  obtain ⟨r1, r2, r3⟩ :=
    replaceEaten_food_spec rng pid score1 base hfresh eaten (setSnake g pid snake1, k, evs)
      hok1 (hsub.nodup hok.1)
      (fun s hs => by
        show s ∈ mkeys (setSnake g pid snake1).food
        rw [setSnake_food]
        exact hsub.subset hs)
  have hrty : (replaceEaten rng pid score1 eaten (setSnake g pid snake1, k, evs)).1.rtype
      = RoomType.freeplay := by
    rw [replaceEaten_rtype, setSnake_rtype]
    exact hty
  obtain ⟨c1, c2, c3⟩ :=
    collisionPhase_freeplay rng pid head pids
      (replaceEaten rng pid score1 eaten (setSnake g pid snake1, k, evs)) hrty
  refine ⟨?_, ?_, ?_, c3⟩
  · rw [c1]
    have : (setSnake g pid snake1).food.length = g.food.length := by
      rw [setSnake_food]
    rw [r1]
    exact this
  · refine (r2.mono ?_).of_food_eq c1
    rw [c2]
  · rw [c2]
    exact r3

/-- One freeplay player step keeps the food count unchanged: wall and
snake-vs-snake deaths drop no food in freeplay, and each food item eaten
is deleted and immediately replaced by one freshly generated item. -/
theorem stepPlayer_freeplay_food (rng : Rng) (base : List String) (pids : List String)
    (hfresh : FreshIds rng base) (st : GameRoom × ℕ × List Ev) (pid : String)
    (hty : st.1.rtype = RoomType.freeplay)
    (hok : FoodKeysOk rng base st.1 st.2.1) :
    (stepPlayer rng pids st pid).1.food.length = st.1.food.length ∧
    FoodKeysOk rng base (stepPlayer rng pids st pid).1
      (stepPlayer rng pids st pid).2.1 ∧
    st.2.1 ≤ (stepPlayer rng pids st pid).2.1 ∧
    (stepPlayer rng pids st pid).1.rtype = RoomType.freeplay := by
  unfold stepPlayer
  split
  · exact ⟨rfl, hok, le_refl _, hty⟩
  · rename_i player hp
    split
    · exact ⟨rfl, hok, le_refl _, hty⟩
    · dsimp only
      repeat' split
      · exact ⟨by rw [setSnake_food], hok.of_food_eq (setSnake_food _ _ _), le_refl _,
          by rw [setSnake_rtype]; exact hty⟩
      · obtain ⟨ex, hx1, hx2, -, -, -⟩ :=
          eatScan_spec player.snake.segments.headI st.1.food
            ([], player.snake.score, player.snake.radius,
              { x := player.snake.segments.headI.x + rng.cos player.snake.angle * 1.8
                y := player.snake.segments.headI.y + rng.sin player.snake.angle * 1.8 }
                :: player.snake.segments.dropLast)
        rw [List.nil_append] at hx1
        exact composite_freeplay_food rng base pids hfresh st.1 st.2.1 st.2.2 pid _ _ _ _
          hty hok (hx1 ▸ hx2)

/-- A whole freeplay tick keeps the food count unchanged. -/
theorem tickFold_freeplay_food (rng : Rng) (base : List String) (pids : List String)
    (hfresh : FreshIds rng base) :
    ∀ (l : List String) (st : GameRoom × ℕ × List Ev),
      st.1.rtype = RoomType.freeplay →
      FoodKeysOk rng base st.1 st.2.1 →
      (l.foldl (stepPlayer rng pids) st).1.food.length = st.1.food.length ∧
      (l.foldl (stepPlayer rng pids) st).1.rtype = RoomType.freeplay := by
  intro l
  induction l with
  | nil => intro st hty hok; exact ⟨rfl, hty⟩
  | cons pid tl ih =>
    intro st hty hok
    obtain ⟨s1, s2, s3, s4⟩ := stepPlayer_freeplay_food rng base pids hfresh st pid hty hok
    obtain ⟨r1, r2⟩ := ih (stepPlayer rng pids st pid) s4 s2
    rw [List.foldl_cons]
    exact ⟨by rw [r1, s1], r2⟩

/-! ## C1 — food count across a tick -/

/-- **C1 (amended).** In the freeplay room every simulation tick
preserves the food count: each consumed food item is deleted and
immediately replaced by exactly one freshly generated item, and no other
freeplay action changes the food map.  (In paid/casual rooms a death
during the tick *adds* food via `dropFoodFromSnake` — see the
counterexample — so there the count is not constant.)  The hypotheses say
that the generated ids are fresh: pairwise distinct and distinct from the
pre-tick food ids, and that the pre-tick food keys are duplicate-free —
both hold of `Map` keys produced by `generateId()` barring random-id
collisions. -/
theorem C1_freeplay_food_invariant (rng : Rng) (g : GameRoom) (k : ℕ)
    (hty : g.rtype = RoomType.freeplay)
    (hfresh : FreshIds rng (mkeys g.food))
    (hnd : (mkeys g.food).Nodup) :
    (tickRoom rng g k).1.food.length = g.food.length := by
  unfold tickRoom
  split
  · exact (tickFold_freeplay_food rng (mkeys g.food) (mkeys g.players) hfresh
      (mkeys g.players) (g, k, []) hty ⟨hnd, fun s hs => Or.inl hs⟩).1
  · rfl

/-- Counterexample for C1 as stated: in a casual room a wall death during
the tick drops food from the dying snake, so the food count after the
tick (2) differs from the count before it (1). -/
theorem C1_counterexample :
    wCasualRoomC1.food.length = 1 ∧
    (tickRoom wrng wCasualRoomC1 0).1.food.length = 2 := by
  constructor
  · rfl
  · with_unfolding_all rfl

/-- Witness for C1 (amended): the freeplay-tick food-count invariant
instantiated on the concrete freeplay room. -/
theorem C1_freeplay_food_invariant_witness :
    (tickRoom wrng wFreeRoom 0).1.food.length = wFreeRoom.food.length := by
  apply C1_freeplay_food_invariant wrng wFreeRoom 0 rfl
  · constructor
    · exact wdraw_id_inj
    · intro i hmem
      have : (wdraw i).id = "b" := by
        simpa [wFreeRoom, mkeys] using hmem
      exact wdraw_id_ne_b i this
  · decide

theorem scoreLe_refl (g : GameRoom) : ScoreLe g g :=
  fun _ p' h => ⟨p', h, le_refl _⟩

theorem scoreLe_trans {g1 g2 g3 : GameRoom} (h12 : ScoreLe g1 g2)
    (h23 : ScoreLe g2 g3) : ScoreLe g1 g3 := by
  intro pid p3 h3
  obtain ⟨p2, h2, le23⟩ := h23 pid p3 h3
  obtain ⟨p1, h1, le12⟩ := h12 pid p2 h2
  exact ⟨p1, h1, le12.trans le23⟩

theorem scoreLe_of_players_eq {g g' : GameRoom} (h : g'.players = g.players) :
    ScoreLe g g' := by
  intro pid p' hp
  rw [h] at hp
  exact ⟨p', hp, le_refl _⟩

theorem scoreLe_setSnake {g : GameRoom} {pid : String} {p : Player} {s : Snake}
    (hp : mget g.players pid = some p) (hs : p.snake.score ≤ s.score) :
    ScoreLe g (setSnake g pid s) := by
  intro pid' p' hp'
  by_cases he : pid' = pid
  · subst he
    rw [setSnake_mget_self g pid' s p hp] at hp'
    obtain rfl := Option.some.inj hp'
    exact ⟨p, hp, hs⟩
  · rw [setSnake_mget_ne g pid pid' s he] at hp'
    exact ⟨p', hp', le_refl _⟩

theorem scoreLe_drop_then_win (g g1 : GameRoom) (rng : Rng) (p : Player) (k : ℕ)
    (h : ScoreLe g g1) :
    ScoreLe g (checkWinCondition (dropFoodFromSnake rng g1 p k).1).1 := by
  refine scoreLe_trans h ?_
  refine scoreLe_trans (scoreLe_of_players_eq (dropFoodFromSnake_players rng g1 p k)) ?_
  exact scoreLe_of_players_eq (checkWinCondition_players _)

theorem scoreLe_freeplay_kill (g : GameRoom) (pid oid : String) (self other : Player)
    (hself : mget g.players pid = some self) (hother : mget g.players oid = some other)
    (hne : pid ≠ oid) :
    ScoreLe g (setSnake (setSnake g oid
      { other.snake with
        score := other.snake.score + 50
        killCount := other.snake.killCount + 1 }) pid
      { self.snake with isDead := true }) := by
  refine @scoreLe_trans g
    (setSnake g oid
      { other.snake with
        score := other.snake.score + 50
        killCount := other.snake.killCount + 1 })
    _ ?_ ?_
  · exact scoreLe_setSnake hother
      (show other.snake.score ≤ other.snake.score + 50 by omega)
  · refine scoreLe_setSnake ?_ (le_refl _)
    rw [setSnake_mget_ne _ _ _ _ hne]
    exact hself

theorem collisionStep_scoreLe (rng : Rng) (pid : String) (head : Pos)
    (acc : GameRoom × ℕ × List Ev) (oid : String) :
    ScoreLe acc.1 (collisionStep rng pid head acc oid).1 := by
  by_cases hcol : collidesWith acc.1 pid head oid = true
  · have hne : pid ≠ oid := by
      intro he
      rw [he] at hcol
      unfold collidesWith at hcol
      simp at hcol
    unfold collisionStep
    rw [if_pos hcol]
    split
    · rename_i self other hself hother
      split
      · exact scoreLe_freeplay_kill acc.1 pid oid self other hself hother hne
      · exact scoreLe_drop_then_win acc.1 _ rng _ acc.2.1
          (scoreLe_setSnake hself (le_refl _))
    · exact scoreLe_refl _
  · unfold collisionStep
    rw [if_neg hcol]
    exact scoreLe_refl _

theorem collisionPhase_scoreLe (rng : Rng) (pid : String) (head : Pos)
    (pids : List String) :
    ∀ acc : GameRoom × ℕ × List Ev,
      ScoreLe acc.1 (collisionPhase rng pids pid head acc).1 := by
  induction pids with
  | nil => intro acc; exact scoreLe_refl _
  | cons oid tl ih =>
    intro acc
    have hcons : collisionPhase rng (oid :: tl) pid head acc
        = collisionPhase rng tl pid head (collisionStep rng pid head acc oid) := by
      unfold collisionPhase
      rw [List.foldl_cons]
    rw [hcons]
    exact scoreLe_trans (collisionStep_scoreLe rng pid head acc oid) (ih _)

theorem scoreLe_eat_then_collide (rng : Rng) (pids : List String) (pid : String)
    (head : Pos) (g : GameRoom) (k : ℕ) (evs : List Ev) (s1 : Snake)
    (score1 : ℤ) (eaten : List String) (p : Player)
    (hp : mget g.players pid = some p) (hs : p.snake.score ≤ s1.score) :
    ScoreLe g (collisionPhase rng pids pid head
      (replaceEaten rng pid score1 eaten (setSnake g pid s1, k, evs))).1 := by
  refine scoreLe_trans (scoreLe_setSnake hp hs) ?_
  refine scoreLe_trans
    (scoreLe_of_players_eq
      (replaceEaten_players rng pid score1 eaten (setSnake g pid s1, k, evs))) ?_
  exact collisionPhase_scoreLe rng pid head pids
    (replaceEaten rng pid score1 eaten (setSnake g pid s1, k, evs))

theorem stepPlayer_scoreLe (rng : Rng) (pids : List String)
    (st : GameRoom × ℕ × List Ev) (pid : String) :
    ScoreLe st.1 (stepPlayer rng pids st pid).1 := by
  unfold stepPlayer
  split
  · exact scoreLe_refl _
  · rename_i player hp
    split
    · exact scoreLe_refl _
    · dsimp only
      split
      · split
        · exact scoreLe_setSnake hp (le_refl _)
        · exact scoreLe_drop_then_win st.1 _ rng _ st.2.1
            (scoreLe_setSnake hp (le_refl _))
      · obtain ⟨ex, hx1, hx2, hx3, -, -⟩ :=
          eatScan_spec player.snake.segments.headI st.1.food
            ([], player.snake.score, player.snake.radius,
              { x := player.snake.segments.headI.x + rng.cos player.snake.angle * 1.8
                y := player.snake.segments.headI.y + rng.sin player.snake.angle * 1.8 }
                :: player.snake.segments.dropLast)
        refine scoreLe_eat_then_collide rng pids pid _ st.1 st.2.1 st.2.2 _ _ _ player hp ?_
        show player.snake.score ≤ (eatScan player.snake.segments.headI st.1.food
          ([], player.snake.score, player.snake.radius,
            { x := player.snake.segments.headI.x + rng.cos player.snake.angle * 1.8
              y := player.snake.segments.headI.y + rng.sin player.snake.angle * 1.8 }
              :: player.snake.segments.dropLast)).2.1
        rw [hx3]
        show player.snake.score ≤ player.snake.score + 5 * (ex.length : ℤ)
        have hpos : (0 : ℤ) ≤ 5 * (ex.length : ℤ) := by positivity
        omega

/-- **C3 (amended).** Scores never decrease within simulation ticks (they
grow by 5 per food eaten and 50 per freeplay kill), hence stay
non-negative across ticks; but a join or a freeplay respawn replaces the
snake wholesale with a fresh one whose score is 0, discarding the
previous score; and the move handler only updates the heading and the
last-update timestamp of a live snake. -/
theorem C3_score_monotone (rng : Rng) (g : GameRoom) (k : ℕ) :
    (∀ pid p', mget (tickRoom rng g k).1.players pid = some p' →
      ∃ p, mget g.players pid = some p ∧ p.snake.score ≤ p'.snake.score) ∧
    ((∀ pid p, mget g.players pid = some p → 0 ≤ p.snake.score) →
      ∀ pid p', mget (tickRoom rng g k).1.players pid = some p' →
        0 ≤ p'.snake.score) ∧
    (∀ (sid : String) (pos : Pos) (i : ℕ), (freshSnake sid pos i).score = 0) ∧
    (∀ (st : ServerState) (socketId : String) (angle : ℚ) (now : ℤ),
      moveHandler st socketId angle now = st ∨
      ∃ gameId g0 pq,
        mget st.playerToGame socketId = some gameId ∧
        mget st.games gameId = some g0 ∧
        g0.players.find? (fun q => q.2.socketId = socketId) = some pq ∧
        moveHandler st socketId angle now =
          { st with
              games :=
                mset st.games gameId
                  { g0 with
                      players :=
                        mset g0.players pq.2.id
                          { pq.2 with
                              snake := { pq.2.snake with angle := angle }
                              lastUpdate := now } } }) := by
  have htick : ScoreLe g (tickRoom rng g k).1 := by
    unfold tickRoom
    split
    · have main : ∀ (l : List String) (st : GameRoom × ℕ × List Ev),
          ScoreLe st.1 (l.foldl (stepPlayer rng (mkeys g.players)) st).1 := by
        intro l
        induction l with
        | nil => intro st; exact scoreLe_refl _
        | cons pid tl ih =>
          intro st
          rw [List.foldl_cons]
          exact scoreLe_trans (stepPlayer_scoreLe rng (mkeys g.players) st pid) (ih _)
      exact main (mkeys g.players) (g, k, [])
    · exact scoreLe_refl _
  refine ⟨htick, ?_, fun _ _ _ => rfl, ?_⟩
  · intro hnn pid p' hp'
    obtain ⟨p, hp, hle⟩ := htick pid p' hp'
    exact le_trans (hnn pid p hp) hle
  · intro st socketId angle now
    unfold moveHandler
    split
    · exact Or.inl rfl
    · rename_i gameId h1
      split
      · exact Or.inl rfl
      · rename_i g0 h2
        split
        · exact Or.inl rfl
        · rename_i pq h3
          split
          · exact Or.inl rfl
          · exact Or.inr ⟨gameId, g0, pq, h1, h2, h3, rfl⟩

theorem segEq_refl (g : GameRoom) : SegEq g g := fun _ => rfl

theorem segEq_trans {g1 g2 g3 : GameRoom} (h12 : SegEq g1 g2) (h23 : SegEq g2 g3) :
    SegEq g1 g3 := fun pid => (h23 pid).trans (h12 pid)

theorem segEq_of_players_eq {g g' : GameRoom} (h : g'.players = g.players) :
    SegEq g g' := fun pid => by rw [h]

theorem segEq_setSnake {g : GameRoom} {pid : String} {p : Player} {s : Snake}
    (hp : mget g.players pid = some p) (hs : s.segments = p.snake.segments) :
    SegEq g (setSnake g pid s) := by
  intro pid'
  by_cases he : pid' = pid
  · subst he
    rw [setSnake_mget_self g pid' s p hp, hp]
    simp [hs]
  · rw [setSnake_mget_ne g pid pid' s he]

theorem segEq_freeplay_kill (g : GameRoom) (pid oid : String) (self other : Player)
    (hself : mget g.players pid = some self) (hother : mget g.players oid = some other)
    (hne : pid ≠ oid) :
    SegEq g (setSnake (setSnake g oid
      { other.snake with
        score := other.snake.score + 50
        killCount := other.snake.killCount + 1 }) pid
      { self.snake with isDead := true }) := by
  refine @segEq_trans g
    (setSnake g oid
      { other.snake with
        score := other.snake.score + 50
        killCount := other.snake.killCount + 1 })
    _ ?_ ?_
  · exact segEq_setSnake hother rfl
  · refine segEq_setSnake ?_ rfl
    rw [setSnake_mget_ne _ _ _ _ hne]
    exact hself

theorem segEq_drop_then_win (g g1 : GameRoom) (rng : Rng) (p : Player) (k : ℕ)
    (h : SegEq g g1) :
    SegEq g (checkWinCondition (dropFoodFromSnake rng g1 p k).1).1 := by
  refine segEq_trans h ?_
  refine segEq_trans (segEq_of_players_eq (dropFoodFromSnake_players rng g1 p k)) ?_
  exact segEq_of_players_eq (checkWinCondition_players _)

theorem collisionStep_segEq (rng : Rng) (pid : String) (head : Pos)
    (acc : GameRoom × ℕ × List Ev) (oid : String) :
    SegEq acc.1 (collisionStep rng pid head acc oid).1 := by
  by_cases hcol : collidesWith acc.1 pid head oid = true
  · have hne : pid ≠ oid := by
      intro he
      rw [he] at hcol
      unfold collidesWith at hcol
      simp at hcol
    unfold collisionStep
    rw [if_pos hcol]
    split
    · rename_i self other hself hother
      split
      · exact segEq_freeplay_kill acc.1 pid oid self other hself hother hne
      · exact segEq_drop_then_win acc.1 _ rng _ acc.2.1 (segEq_setSnake hself rfl)
    · exact segEq_refl _
  · unfold collisionStep
    rw [if_neg hcol]
    exact segEq_refl _

theorem collisionPhase_segEq (rng : Rng) (pid : String) (head : Pos)
    (pids : List String) :
    ∀ acc : GameRoom × ℕ × List Ev,
      SegEq acc.1 (collisionPhase rng pids pid head acc).1 := by
  induction pids with
  | nil => intro acc; exact segEq_refl _
  | cons oid tl ih =>
    intro acc
    have hcons : collisionPhase rng (oid :: tl) pid head acc
        = collisionPhase rng tl pid head (collisionStep rng pid head acc oid) := by
      unfold collisionPhase
      rw [List.foldl_cons]
    rw [hcons]
    exact segEq_trans (collisionStep_segEq rng pid head acc oid) (ih _)

/-! ## C7 — the movement step -/

/-- **C7.** In a tick, a living snake that does not die on the wall moves
to `newHead = oldHead + (cos θ, sin θ) · 1.8` (the oracle's trigonometric
values of its heading, a unit vector), its segment list becomes
`[newHead] ++ all-but-last(oldSegments)` — preserving the length — and
then grows by one duplicated tail segment per food item eaten this tick,
so the final length is the old length plus the number of items eaten. -/
theorem C7_movement (rng : Rng) (pids : List String) (st : GameRoom × ℕ × List Ev)
    (pid : String) (player : Player)
    (hp : mget st.1.players pid = some player)
    (halive : player.snake.isDead = false)
    (hne : player.snake.segments ≠ [])
    (hunit : rng.cos player.snake.angle ^ 2 + rng.sin player.snake.angle ^ 2 = 1)
    (hnw : wallHit st.1.worldSize player.snake.radius
      { x := player.snake.segments.headI.x + rng.cos player.snake.angle * 1.8
        y := player.snake.segments.headI.y + rng.sin player.snake.angle * 1.8 } = false) :
    ∃ (n : ℕ) (p' : Player),
      mget (stepPlayer rng pids st pid).1.players pid = some p' ∧
      p'.snake.segments
        = ({ x := player.snake.segments.headI.x + rng.cos player.snake.angle * 1.8
             y := player.snake.segments.headI.y + rng.sin player.snake.angle * 1.8 }
            :: player.snake.segments.dropLast)
          ++ List.replicate n
              (({ x := player.snake.segments.headI.x + rng.cos player.snake.angle * 1.8
                  y := player.snake.segments.headI.y + rng.sin player.snake.angle * 1.8 }
                :: player.snake.segments.dropLast).getLastD default) ∧
      p'.snake.segments.length = player.snake.segments.length + n := by
  obtain ⟨ex, hx1, hx2, hx3, hx4, hx5⟩ :=
    eatScan_spec player.snake.segments.headI st.1.food
      ([], player.snake.score, player.snake.radius,
        { x := player.snake.segments.headI.x + rng.cos player.snake.angle * 1.8
          y := player.snake.segments.headI.y + rng.sin player.snake.angle * 1.8 }
          :: player.snake.segments.dropLast)
  have hstep : stepPlayer rng pids st pid
      = collisionPhase rng pids pid player.snake.segments.headI
          (replaceEaten rng pid
            (eatScan player.snake.segments.headI st.1.food
              ([], player.snake.score, player.snake.radius,
                { x := player.snake.segments.headI.x + rng.cos player.snake.angle * 1.8
                  y := player.snake.segments.headI.y + rng.sin player.snake.angle * 1.8 }
                  :: player.snake.segments.dropLast)).2.1
            (eatScan player.snake.segments.headI st.1.food
              ([], player.snake.score, player.snake.radius,
                { x := player.snake.segments.headI.x + rng.cos player.snake.angle * 1.8
                  y := player.snake.segments.headI.y + rng.sin player.snake.angle * 1.8 }
                  :: player.snake.segments.dropLast)).1
            (setSnake st.1 pid
              { player.snake with
                segments :=
                  (eatScan player.snake.segments.headI st.1.food
                    ([], player.snake.score, player.snake.radius,
                      { x := player.snake.segments.headI.x + rng.cos player.snake.angle * 1.8
                        y := player.snake.segments.headI.y + rng.sin player.snake.angle * 1.8 }
                        :: player.snake.segments.dropLast)).2.2.2
                score :=
                  (eatScan player.snake.segments.headI st.1.food
                    ([], player.snake.score, player.snake.radius,
                      { x := player.snake.segments.headI.x + rng.cos player.snake.angle * 1.8
                        y := player.snake.segments.headI.y + rng.sin player.snake.angle * 1.8 }
                        :: player.snake.segments.dropLast)).2.1
                radius :=
                  (eatScan player.snake.segments.headI st.1.food
                    ([], player.snake.score, player.snake.radius,
                      { x := player.snake.segments.headI.x + rng.cos player.snake.angle * 1.8
                        y := player.snake.segments.headI.y + rng.sin player.snake.angle * 1.8 }
                        :: player.snake.segments.dropLast)).2.2.1 },
              st.2.1, st.2.2)) := by
    simp [stepPlayer, hp, halive, hnw]
  rw [hstep]
  have hseg := collisionPhase_segEq rng pid player.snake.segments.headI pids
    (replaceEaten rng pid
      (eatScan player.snake.segments.headI st.1.food
        ([], player.snake.score, player.snake.radius,
          { x := player.snake.segments.headI.x + rng.cos player.snake.angle * 1.8
            y := player.snake.segments.headI.y + rng.sin player.snake.angle * 1.8 }
            :: player.snake.segments.dropLast)).2.1
      (eatScan player.snake.segments.headI st.1.food
        ([], player.snake.score, player.snake.radius,
          { x := player.snake.segments.headI.x + rng.cos player.snake.angle * 1.8
            y := player.snake.segments.headI.y + rng.sin player.snake.angle * 1.8 }
            :: player.snake.segments.dropLast)).1
      (setSnake st.1 pid
        { player.snake with
          segments :=
            (eatScan player.snake.segments.headI st.1.food
              ([], player.snake.score, player.snake.radius,
                { x := player.snake.segments.headI.x + rng.cos player.snake.angle * 1.8
                  y := player.snake.segments.headI.y + rng.sin player.snake.angle * 1.8 }
                  :: player.snake.segments.dropLast)).2.2.2
          score :=
            (eatScan player.snake.segments.headI st.1.food
              ([], player.snake.score, player.snake.radius,
                { x := player.snake.segments.headI.x + rng.cos player.snake.angle * 1.8
                  y := player.snake.segments.headI.y + rng.sin player.snake.angle * 1.8 }
                  :: player.snake.segments.dropLast)).2.1
          radius :=
            (eatScan player.snake.segments.headI st.1.food
              ([], player.snake.score, player.snake.radius,
                { x := player.snake.segments.headI.x + rng.cos player.snake.angle * 1.8
                  y := player.snake.segments.headI.y + rng.sin player.snake.angle * 1.8 }
                  :: player.snake.segments.dropLast)).2.2.1 },
        st.2.1, st.2.2))
  have hmid := hseg pid
  rw [replaceEaten_players] at hmid
  have hms : mget (setSnake st.1 pid
      { player.snake with
        segments :=
          (eatScan player.snake.segments.headI st.1.food
            ([], player.snake.score, player.snake.radius,
              { x := player.snake.segments.headI.x + rng.cos player.snake.angle * 1.8
                y := player.snake.segments.headI.y + rng.sin player.snake.angle * 1.8 }
                :: player.snake.segments.dropLast)).2.2.2
        score :=
          (eatScan player.snake.segments.headI st.1.food
            ([], player.snake.score, player.snake.radius,
              { x := player.snake.segments.headI.x + rng.cos player.snake.angle * 1.8
                y := player.snake.segments.headI.y + rng.sin player.snake.angle * 1.8 }
                :: player.snake.segments.dropLast)).2.1
        radius :=
          (eatScan player.snake.segments.headI st.1.food
            ([], player.snake.score, player.snake.radius,
              { x := player.snake.segments.headI.x + rng.cos player.snake.angle * 1.8
                y := player.snake.segments.headI.y + rng.sin player.snake.angle * 1.8 }
                :: player.snake.segments.dropLast)).2.2.1 }).players pid
      = some { player with snake :=
          { player.snake with
            segments :=
              (eatScan player.snake.segments.headI st.1.food
                ([], player.snake.score, player.snake.radius,
                  { x := player.snake.segments.headI.x + rng.cos player.snake.angle * 1.8
                    y := player.snake.segments.headI.y + rng.sin player.snake.angle * 1.8 }
                    :: player.snake.segments.dropLast)).2.2.2
            score :=
              (eatScan player.snake.segments.headI st.1.food
                ([], player.snake.score, player.snake.radius,
                  { x := player.snake.segments.headI.x + rng.cos player.snake.angle * 1.8
                    y := player.snake.segments.headI.y + rng.sin player.snake.angle * 1.8 }
                    :: player.snake.segments.dropLast)).2.1
            radius :=
              (eatScan player.snake.segments.headI st.1.food
                ([], player.snake.score, player.snake.radius,
                  { x := player.snake.segments.headI.x + rng.cos player.snake.angle * 1.8
                    y := player.snake.segments.headI.y + rng.sin player.snake.angle * 1.8 }
                    :: player.snake.segments.dropLast)).2.2.1 } } :=
    setSnake_mget_self _ _ _ _ hp
  rw [hms] at hmid
  simp only [Option.map_some] at hmid
  rw [List.nil_append] at hx1
  obtain ⟨p', hp', hps⟩ := Option.map_eq_some'.mp hmid
  refine ⟨ex.length, p', hp', ?_, ?_⟩
  · rw [hps]
    show (eatScan player.snake.segments.headI st.1.food
      ([], player.snake.score, player.snake.radius,
        { x := player.snake.segments.headI.x + rng.cos player.snake.angle * 1.8
          y := player.snake.segments.headI.y + rng.sin player.snake.angle * 1.8 }
          :: player.snake.segments.dropLast)).2.2.2 = _
    rw [hx4]
  · rw [hps]
    show ((eatScan player.snake.segments.headI st.1.food
      ([], player.snake.score, player.snake.radius,
        { x := player.snake.segments.headI.x + rng.cos player.snake.angle * 1.8
          y := player.snake.segments.headI.y + rng.sin player.snake.angle * 1.8 }
          :: player.snake.segments.dropLast)).2.2.2).length = _
    rw [hx4]
    have hpos : 0 < player.snake.segments.length := List.length_pos_of_ne_nil hne
    simp [List.length_dropLast]
    omega

/-! ## Collision-phase characterization (C4) -/

theorem collidesWith_self (g : GameRoom) (pid : String) (head : Pos) :
    collidesWith g pid head pid = false := by
  unfold collidesWith
  simp

theorem collidesWith_true_isSome {g : GameRoom} {pid oid : String} {head : Pos}
    (h : collidesWith g pid head oid = true) :
    ∃ self other, mget g.players pid = some self ∧ mget g.players oid = some other := by
  unfold collidesWith at h
  split at h
  · exact absurd h (by simp)
  · split at h
    · rename_i self other hself hother
      exact ⟨self, other, hself, hother⟩
    · exact absurd h (by simp)

theorem collidesWith_congr (g g' : GameRoom) (pid : String) (head : Pos) (oid : String)
    (hself : (mget g'.players pid).map (fun p => p.snake.radius)
      = (mget g.players pid).map (fun p => p.snake.radius))
    (hoth : mget g'.players oid = mget g.players oid) :
    collidesWith g' pid head oid = collidesWith g pid head oid := by
  unfold collidesWith
  by_cases he : oid = pid
  · simp [he]
  · simp only [he, if_false]
    rw [hoth]
    cases hp' : mget g'.players pid with
    | none =>
      rw [hp'] at hself
      cases hp : mget g.players pid with
      | none => rfl
      | some p => rw [hp] at hself; simp at hself
    | some p' =>
      rw [hp'] at hself
      cases hp : mget g.players pid with
      | none => rw [hp] at hself; simp at hself
      | some p =>
        rw [hp] at hself
        simp at hself
        cases mget g.players oid with
        | none => rfl
        | some o => simp [hself]

theorem collisionStep_pos (rng : Rng) (pid : String) (head : Pos)
    (acc : GameRoom × ℕ × List Ev) (oid : String) (self other : Player)
    (hcol : collidesWith acc.1 pid head oid = true)
    (hself : mget acc.1.players pid = some self)
    (hother : mget acc.1.players oid = some other)
    (hrty : acc.1.rtype = RoomType.freeplay) :
    collisionStep rng pid head acc oid
      = (setSnake (setSnake acc.1 oid
          { other.snake with
            score := other.snake.score + 50
            killCount := other.snake.killCount + 1 }) pid
          { self.snake with isDead := true },
        acc.2.1, acc.2.2 ++ [Ev.playerDied pid [] (some oid) true]) := by
  unfold collisionStep
  rw [if_pos hcol]
  simp only [hself, hother, hrty, if_true]

theorem collisionStep_neg (rng : Rng) (pid : String) (head : Pos)
    (acc : GameRoom × ℕ × List Ev) (oid : String)
    (hcol : collidesWith acc.1 pid head oid = false) :
    collisionStep rng pid head acc oid = acc := by
  unfold collisionStep
  rw [if_neg (by simp [hcol])]

/-- Full characterization of the snake-vs-snake collision phase in a
freeplay room: processing the id list `rest` (the tick snapshot) appends
one `player-died` event per *other* snake the head collides with (the
scan is not stopped by the snake's own death), gives each such other
snake's owner exactly +50 score and +1 kill count, leaves non-colliding
players untouched, and marks the stepped snake dead iff at least one
collision was resolved. -/
theorem collisionPhase_freeplay_spec (rng : Rng) (pid : String) (head : Pos)
    (g0 : GameRoom) :
    ∀ (rest : List String) (acc : GameRoom × ℕ × List Ev),
      rest.Nodup →
      acc.1.rtype = RoomType.freeplay →
      (∀ oid ∈ rest, oid ≠ pid → mget acc.1.players oid = mget g0.players oid) →
      ((mget acc.1.players pid).map (fun p => p.snake.radius)
        = (mget g0.players pid).map (fun p => p.snake.radius)) →
      ((collisionPhase rng rest pid head acc).2.2
        = acc.2.2 ++ (rest.filter (fun oid => collidesWith g0 pid head oid)).map
            (fun oid => Ev.playerDied pid [] (some oid) true)) ∧
      (∀ oid ∈ rest, oid ≠ pid →
        (collidesWith g0 pid head oid = true →
          ∃ p0, mget g0.players oid = some p0 ∧
            mget (collisionPhase rng rest pid head acc).1.players oid
              = some { p0 with snake :=
                  { p0.snake with
                    score := p0.snake.score + 50
                    killCount := p0.snake.killCount + 1 } }) ∧
        (collidesWith g0 pid head oid = false →
          mget (collisionPhase rng rest pid head acc).1.players oid
            = mget g0.players oid)) ∧
      (∀ oid', oid' ∉ rest → oid' ≠ pid →
        mget (collisionPhase rng rest pid head acc).1.players oid'
          = mget acc.1.players oid') ∧
      ((∃ oid ∈ rest, collidesWith g0 pid head oid = true) →
        ∀ sc, mget acc.1.players pid = some sc →
          mget (collisionPhase rng rest pid head acc).1.players pid
            = some { sc with snake := { sc.snake with isDead := true } }) ∧
      ((∀ oid ∈ rest, collidesWith g0 pid head oid = false) →
        mget (collisionPhase rng rest pid head acc).1.players pid
          = mget acc.1.players pid) := by
  intro rest
  induction rest with
  | nil =>
    intro acc hnd hrty hoth hrad
    refine ⟨by simp [collisionPhase], ?_, ?_, ?_, ?_⟩
    · intro oid h; simp at h
    · intro oid' h1 h2; rfl
    · intro h; simp at h
    · intro h; rfl
  | cons oid tl ih =>
    intro acc hnd hrty hoth hrad
    obtain ⟨hnotl, hndtl⟩ := List.nodup_cons.mp hnd
    have hcons : collisionPhase rng (oid :: tl) pid head acc
        = collisionPhase rng tl pid head (collisionStep rng pid head acc oid) := by
      unfold collisionPhase
      rw [List.foldl_cons]
    by_cases hpe : oid = pid
    · -- the snapshot entry for the stepped player itself: never a collision
      subst hpe
      have hc0 : collidesWith g0 oid head oid = false := collidesWith_self _ _ _
      have hca : collidesWith acc.1 oid head oid = false := collidesWith_self _ _ _
      have hstep := collisionStep_neg rng oid head acc oid hca
      rw [hcons, hstep]
      obtain ⟨i1, i2, i3, i4, i5⟩ := ih acc hndtl hrty
        (fun o ho hne => hoth o (List.mem_cons_of_mem _ ho) hne) hrad
      refine ⟨?_, ?_, ?_, ?_, ?_⟩
      · rw [i1]
        simp [hc0]
      · intro o ho hne
        rcases List.mem_cons.mp ho with rfl | ho
        · exact absurd rfl hne
        · exact i2 o ho hne
      · intro o ho hne
        exact i3 o (fun h => ho (List.mem_cons_of_mem _ h)) hne
      · intro hex sc hsc
        rcases hex with ⟨w, hw, hwc⟩
        rcases List.mem_cons.mp hw with rfl | hw
        · rw [hc0] at hwc; simp at hwc
        · exact i4 ⟨w, hw, hwc⟩ sc hsc
      · intro hall
        exact i5 (fun o ho => hall o (List.mem_cons_of_mem _ ho))
    · -- a genuine other entry
      have hceq : collidesWith acc.1 pid head oid = collidesWith g0 pid head oid :=
        collidesWith_congr g0 acc.1 pid head oid hrad
          (hoth oid (List.mem_cons_self _ _) hpe)
      by_cases hb : collidesWith g0 pid head oid = true
      · -- collision resolved against oid
        obtain ⟨self, other, hself, hother⟩ :=
          collidesWith_true_isSome (hceq.trans hb)
        have hstep := collisionStep_pos rng pid head acc oid self other
          (hceq.trans hb) hself hother hrty
        have hp0 : mget g0.players oid = some other :=
          (hoth oid (List.mem_cons_self _ _) hpe).symm.trans hother
        set g1 : GameRoom := setSnake (setSnake acc.1 oid
            { other.snake with
              score := other.snake.score + 50
              killCount := other.snake.killCount + 1 }) pid
            { self.snake with isDead := true } with hg1
        have hg1oth : ∀ o ∈ tl, o ≠ pid → mget g1.players o = mget g0.players o := by
          intro o ho hne
          rw [hg1, setSnake_mget_ne _ _ _ _ hne,
            setSnake_mget_ne _ _ _ _ (fun he => hnotl (by rw [← he]; exact ho)),
            hoth o (List.mem_cons_of_mem _ ho) hne]
        have hg1selfEq : mget g1.players pid
            = some { self with snake := { self.snake with isDead := true } } := by
          rw [hg1]
          refine setSnake_mget_self _ _ _ _ ?_
          rw [setSnake_mget_ne _ _ _ _ (Ne.symm hpe)]
          exact hself
        have hg1rad : (mget g1.players pid).map (fun p => p.snake.radius)
            = (mget g0.players pid).map (fun p => p.snake.radius) := by
          rw [hg1selfEq, ← hrad, hself]
          rfl
        obtain ⟨i1, i2, i3, i4, i5⟩ := ih (g1, acc.2.1,
            acc.2.2 ++ [Ev.playerDied pid [] (some oid) true])
          hndtl (by rw [hg1, setSnake_rtype, setSnake_rtype]; exact hrty) hg1oth hg1rad
        rw [hcons, hstep]
        refine ⟨?_, ?_, ?_, ?_, ?_⟩
        · rw [i1]
          simp [hb, List.append_assoc]
        · intro o ho hne
          rcases List.mem_cons.mp ho with rfl | ho
          · refine ⟨fun _ => ⟨other, hp0, ?_⟩, fun hfalse => absurd hb (by simp [hfalse])⟩
            rw [i3 o hnotl hne]
            dsimp only
            rw [hg1, setSnake_mget_ne _ _ _ _ hne]
            exact setSnake_mget_self _ _ _ _ hother
          · exact i2 o ho hne
        · intro o ho hne
          have hotl : o ∉ tl := fun h => ho (List.mem_cons_of_mem _ h)
          have hooid : o ≠ oid := fun he => ho (he ▸ List.mem_cons_self _ _)
          rw [i3 o hotl hne]
          dsimp only
          rw [hg1, setSnake_mget_ne _ _ _ _ hne, setSnake_mget_ne _ _ _ _ hooid]
        · intro _ sc hsc
          have hscself : sc = self := by
            rw [hself] at hsc
            exact (Option.some.inj hsc).symm
          subst hscself
          by_cases hex : ∃ o ∈ tl, collidesWith g0 pid head o = true
          · have := i4 hex { sc with snake := { sc.snake with isDead := true } } hg1selfEq
            rw [this]
          · have hall : ∀ o ∈ tl, collidesWith g0 pid head o = false := by
              intro o ho
              by_contra hcon
              exact hex ⟨o, ho, by simpa using hcon⟩
            have := i5 hall
            rw [this]
            dsimp only
            exact hg1selfEq
        · intro hall
          exact absurd (hall oid (List.mem_cons_self _ _)) (by simp [hb])
      · -- no collision against oid
        have hbf : collidesWith g0 pid head oid = false := by
          simpa using hb
        have hstep := collisionStep_neg rng pid head acc oid (hceq.trans hbf)
        rw [hcons, hstep]
        obtain ⟨i1, i2, i3, i4, i5⟩ := ih acc hndtl hrty
          (fun o ho hne => hoth o (List.mem_cons_of_mem _ ho) hne) hrad
        refine ⟨?_, ?_, ?_, ?_, ?_⟩
        · rw [i1]
          simp [hbf]
        · intro o ho hne
          rcases List.mem_cons.mp ho with rfl | ho
          · refine ⟨fun htrue => absurd htrue (by simp [hbf]), fun _ => ?_⟩
            rw [i3 o hnotl hne]
            exact hoth o (List.mem_cons_self _ _) hne
          · exact i2 o ho hne
        · intro o ho hne
          exact i3 o (fun h => ho (List.mem_cons_of_mem _ h)) hne
        · intro hex sc hsc
          rcases hex with ⟨w, hw, hwc⟩
          rcases List.mem_cons.mp hw with rfl | hw
          · rw [hbf] at hwc; simp at hwc
          · exact i4 ⟨w, hw, hwc⟩ sc hsc
        · intro hall
          exact i5 (fun o ho => hall o (List.mem_cons_of_mem _ ho))

theorem checkWinCondition_no_died (g : GameRoom) (pid : String) :
    (checkWinCondition g).2.1.filter (isDiedOf pid) = [] := by
  unfold checkWinCondition
  dsimp only
  split <;> simp [isDiedOf]

/-- The collision threshold: `distance < 0.7·r_self + 0.7·r_other`, which
equals `0.7·(r_self + r_other)`; the scan tests the (pre-move) head
against every segment of every other *living* snake. -/
theorem collidesWith_iff (g : GameRoom) (pid oid : String) (head : Pos)
    (self other : Player)
    (hself : mget g.players pid = some self)
    (hother : mget g.players oid = some other)
    (hne : oid ≠ pid) :
    collidesWith g pid head oid = true ↔
      other.snake.isDead = false ∧
      ∃ seg ∈ other.snake.segments,
        distLtB head seg ((self.snake.radius + other.snake.radius) * 0.7) = true := by
  unfold collidesWith
  rw [if_neg hne, hself, hother]
  dsimp only
  have harith : self.snake.radius * 0.7 + other.snake.radius * 0.7
      = (self.snake.radius + other.snake.radius) * 0.7 := by ring
  rw [harith]
  simp [List.any_eq_true, Bool.and_eq_true]

theorem collisionStep_pos_nonfree (rng : Rng) (pid : String) (head : Pos)
    (acc : GameRoom × ℕ × List Ev) (oid : String) (self other : Player)
    (hcol : collidesWith acc.1 pid head oid = true)
    (hself : mget acc.1.players pid = some self)
    (hother : mget acc.1.players oid = some other)
    (hrty : ¬acc.1.rtype = RoomType.freeplay) :
    collisionStep rng pid head acc oid
      = ((checkWinCondition
            (dropFoodFromSnake rng
              (setSnake acc.1 pid { self.snake with isDead := true })
              { self with snake := { self.snake with isDead := true } }
              acc.2.1).1).1,
        (dropFoodFromSnake rng
          (setSnake acc.1 pid { self.snake with isDead := true })
          { self with snake := { self.snake with isDead := true } }
          acc.2.1).2.1,
        acc.2.2 ++ [Ev.playerDied pid
            (dropFoodFromSnake rng
              (setSnake acc.1 pid { self.snake with isDead := true })
              { self with snake := { self.snake with isDead := true } }
              acc.2.1).2.2 (some oid) false]
          ++ (checkWinCondition
            (dropFoodFromSnake rng
              (setSnake acc.1 pid { self.snake with isDead := true })
              { self with snake := { self.snake with isDead := true } }
              acc.2.1).1).2.1) := by
  unfold collisionStep
  rw [if_pos hcol]
  simp only [hself, hother]
  rw [if_neg hrty]

/-- In a non-freeplay room the collision phase emits exactly one
`player-died` event (with `canRespawn = false`) per other snake the head
collides with — the dying snake's food drop and win re-evaluation run
once per resolved collision, not once per tick. -/
theorem collisionPhase_nonfree_died (rng : Rng) (pid : String) (head : Pos)
    (g0 : GameRoom) :
    ∀ (rest : List String) (acc : GameRoom × ℕ × List Ev),
      rest.Nodup →
      ¬acc.1.rtype = RoomType.freeplay →
      (∀ oid ∈ rest, oid ≠ pid → mget acc.1.players oid = mget g0.players oid) →
      ((mget acc.1.players pid).map (fun p => p.snake.radius)
        = (mget g0.players pid).map (fun p => p.snake.radius)) →
      ∃ dl, (collisionPhase rng rest pid head acc).2.2 = acc.2.2 ++ dl ∧
        (dl.filter (isDiedOf pid)).length
          = (rest.filter (fun oid => collidesWith g0 pid head oid)).length ∧
        (∀ e ∈ dl, isDiedOf pid e = true → evCanRespawn e = false) := by
  intro rest
  induction rest with
  | nil =>
    intro acc hnd hrty hoth hrad
    exact ⟨[], by simp [collisionPhase], by simp, by simp⟩
  | cons oid tl ih =>
    intro acc hnd hrty hoth hrad
    obtain ⟨hnotl, hndtl⟩ := List.nodup_cons.mp hnd
    have hcons : collisionPhase rng (oid :: tl) pid head acc
        = collisionPhase rng tl pid head (collisionStep rng pid head acc oid) := by
      unfold collisionPhase
      rw [List.foldl_cons]
    by_cases hpe : oid = pid
    · subst hpe
      have hca := collidesWith_self acc.1 oid head
      have hstep := collisionStep_neg rng oid head acc oid hca
      rw [hcons, hstep]
      obtain ⟨dl, d1, d2, d3⟩ := ih acc hndtl hrty
        (fun o ho hne => hoth o (List.mem_cons_of_mem _ ho) hne) hrad
      refine ⟨dl, d1, ?_, d3⟩
      rw [d2]
      simp [collidesWith_self g0 oid head]
    · have hceq : collidesWith acc.1 pid head oid = collidesWith g0 pid head oid :=
        collidesWith_congr g0 acc.1 pid head oid hrad
          (hoth oid (List.mem_cons_self _ _) hpe)
      by_cases hb : collidesWith g0 pid head oid = true
      · obtain ⟨self, other, hself, hother⟩ :=
          collidesWith_true_isSome (hceq.trans hb)
        have hstep := collisionStep_pos_nonfree rng pid head acc oid self other
          (hceq.trans hb) hself hother hrty
        have hg1players : (checkWinCondition
            (dropFoodFromSnake rng
              (setSnake acc.1 pid { self.snake with isDead := true })
              { self with snake := { self.snake with isDead := true } }
              acc.2.1).1).1.players
            = (setSnake acc.1 pid { self.snake with isDead := true }).players := by
          rw [checkWinCondition_players, dropFoodFromSnake_players]
        have hg1oth : ∀ o ∈ tl, o ≠ pid →
            mget (checkWinCondition
              (dropFoodFromSnake rng
                (setSnake acc.1 pid { self.snake with isDead := true })
                { self with snake := { self.snake with isDead := true } }
                acc.2.1).1).1.players o = mget g0.players o := by
          intro o ho hne
          rw [hg1players, setSnake_mget_ne _ _ _ _ hne]
          exact hoth o (List.mem_cons_of_mem _ ho) hne
        have hg1rad : (mget (checkWinCondition
              (dropFoodFromSnake rng
                (setSnake acc.1 pid { self.snake with isDead := true })
                { self with snake := { self.snake with isDead := true } }
                acc.2.1).1).1.players pid).map (fun p => p.snake.radius)
            = (mget g0.players pid).map (fun p => p.snake.radius) := by
          rw [hg1players, setSnake_mget_self _ _ _ _ hself, ← hrad, hself]
          rfl
        have hg1rty : ¬(checkWinCondition
            (dropFoodFromSnake rng
              (setSnake acc.1 pid { self.snake with isDead := true })
              { self with snake := { self.snake with isDead := true } }
              acc.2.1).1).1.rtype = RoomType.freeplay := by
          rw [checkWinCondition_rtype, dropFoodFromSnake_rtype, setSnake_rtype]
          exact hrty
        obtain ⟨dl, d1, d2, d3⟩ := ih
          ((checkWinCondition
            (dropFoodFromSnake rng
              (setSnake acc.1 pid { self.snake with isDead := true })
              { self with snake := { self.snake with isDead := true } }
              acc.2.1).1).1,
            (dropFoodFromSnake rng
              (setSnake acc.1 pid { self.snake with isDead := true })
              { self with snake := { self.snake with isDead := true } }
              acc.2.1).2.1,
            acc.2.2 ++ [Ev.playerDied pid
              (dropFoodFromSnake rng
                (setSnake acc.1 pid { self.snake with isDead := true })
                { self with snake := { self.snake with isDead := true } }
                acc.2.1).2.2 (some oid) false]
              ++ (checkWinCondition
                (dropFoodFromSnake rng
                  (setSnake acc.1 pid { self.snake with isDead := true })
                  { self with snake := { self.snake with isDead := true } }
                  acc.2.1).1).2.1)
          hndtl hg1rty hg1oth hg1rad
        rw [hcons, hstep]
        have hwfilter : ((checkWinCondition
            (dropFoodFromSnake rng
              (setSnake acc.1 pid { self.snake with isDead := true })
              { self with snake := { self.snake with isDead := true } }
              acc.2.1).1).2.1).filter (isDiedOf pid) = [] :=
          checkWinCondition_no_died _ _
        refine ⟨[Ev.playerDied pid
            (dropFoodFromSnake rng
              (setSnake acc.1 pid { self.snake with isDead := true })
              { self with snake := { self.snake with isDead := true } }
              acc.2.1).2.2 (some oid) false]
          ++ (checkWinCondition
            (dropFoodFromSnake rng
              (setSnake acc.1 pid { self.snake with isDead := true })
              { self with snake := { self.snake with isDead := true } }
              acc.2.1).1).2.1 ++ dl, ?_, ?_, ?_⟩
        · rw [d1]
          simp [List.append_assoc]
        · rw [List.filter_append, List.filter_append, hwfilter]
          simp only [List.append_nil, List.length_append, d2]
          simp [hb, isDiedOf, List.filter_cons]
          omega
        · intro e he hde
          rcases List.mem_append.mp he with he | he
          · rcases List.mem_append.mp he with he | he
            · rw [List.mem_singleton.mp he]
              rfl
            · have hmem : e ∈ ((checkWinCondition
                  (dropFoodFromSnake rng
                    (setSnake acc.1 pid { self.snake with isDead := true })
                    { self with snake := { self.snake with isDead := true } }
                    acc.2.1).1).2.1).filter (isDiedOf pid) :=
                List.mem_filter.mpr ⟨he, hde⟩
              rw [hwfilter] at hmem
              simp at hmem
          · exact d3 e he hde
      · have hbf : collidesWith g0 pid head oid = false := by simpa using hb
        have hstep := collisionStep_neg rng pid head acc oid (hceq.trans hbf)
        rw [hcons, hstep]
        obtain ⟨dl, d1, d2, d3⟩ := ih acc hndtl hrty
          (fun o ho hne => hoth o (List.mem_cons_of_mem _ ho) hne) hrad
        refine ⟨dl, d1, ?_, d3⟩
        rw [d2]
        simp [hbf]

/-- Witness for C7: stepping the alive snake of the concrete freeplay
room moves it without changing its segment count (up to growth `n`). -/
theorem C7_movement_witness :
    ∃ (n : ℕ) (p' : Player),
      mget (stepPlayer wrng ["a2"] (wFreeRoomAlive, 0, []) "a2").1.players "a2"
        = some p' ∧
      p'.snake.segments.length = 1 + n := by
  obtain ⟨n, p', h1, -, h3⟩ :=
    C7_movement wrng ["a2"] (wFreeRoomAlive, 0, []) "a2" (wPlayerAt "a2" "t2" 100 100)
      rfl rfl (by simp [wPlayerAt, wSnakeAt]) (by norm_num [wrng])
      (by with_unfolding_all rfl)
  exact ⟨n, p', h1, by rw [h3]; rfl⟩

/-- Counterexample for C3 as stated: respawning the freeplay player
`addr1`, whose snake had score 5, stores a snake with score 0 — the score
decreased across a respawn. -/
theorem C3_counterexample :
    wPlayer1.snake.score = 5 ∧
    ((mget (respawnHandler wrng wSt "s1" none 0).1.games "freeplay-main").bind
        (fun g1 => (mget g1.players "addr1").map (fun p1 => p1.snake.score)))
      = some 0 := by
  constructor
  · rfl
  · with_unfolding_all rfl

/-- Witness for C3 (amended): tick score-monotonicity instantiated on the
concrete freeplay room, plus the freshSnake/move facts. -/
theorem C3_score_monotone_witness :
    ((∀ pid p, mget wFreeRoom.players pid = some p → 0 ≤ p.snake.score) →
      ∀ pid p', mget (tickRoom wrng wFreeRoom 0).1.players pid = some p' →
        0 ≤ p'.snake.score) ∧
    (freshSnake "addr1" { x := 200, y := 200 } 1).score = 0 := by
  obtain ⟨-, h2, h3, -⟩ := C3_score_monotone wrng wFreeRoom 0
  exact ⟨h2, h3 _ _ _⟩

/-- C4: during a tick a living snake's (pre-move) head is tested against
every segment of every other living snake with threshold
distance < 0.7·(radius_self + radius_other); per other snake the first
matching segment resolves the collision (the `break` exits the segment
loop), on a freeplay collision that other snake's owner gains exactly
+50 score and +1 killCount while the colliding snake dies, and in other
modes every death event of the scan carries canRespawn = false, with one
such event per colliding other snake.  (The claim's "the first matching
pair ends the collision scan for that snake this tick" is false: the
scan over *other players* continues after a resolved collision, so the
death-event count equals the number of colliding others, not one — see
the counterexample.) -/
theorem C4_collision_characterization (rng : Rng) (g : GameRoom) (pid : String)
    (head : Pos) (rest : List String) (fc : ℕ) (hnd : rest.Nodup) :
    (∀ oid self other, mget g.players pid = some self →
      mget g.players oid = some other → oid ≠ pid →
      (collidesWith g pid head oid = true ↔
        other.snake.isDead = false ∧
        ∃ seg ∈ other.snake.segments,
          distLtB head seg ((self.snake.radius + other.snake.radius) * 0.7) = true)) ∧
    (g.rtype = RoomType.freeplay →
      (collisionPhase rng rest pid head (g, fc, [])).2.2
        = (rest.filter (fun oid => collidesWith g pid head oid)).map
            (fun oid => Ev.playerDied pid [] (some oid) true) ∧
      (∀ oid ∈ rest, oid ≠ pid → collidesWith g pid head oid = true →
        ∃ p0, mget g.players oid = some p0 ∧
          mget (collisionPhase rng rest pid head (g, fc, [])).1.players oid
            = some { p0 with snake :=
                { p0.snake with
                  score := p0.snake.score + 50
                  killCount := p0.snake.killCount + 1 } })) ∧
    (¬g.rtype = RoomType.freeplay →
      (((collisionPhase rng rest pid head (g, fc, [])).2.2).filter
          (isDiedOf pid)).length
        = (rest.filter (fun oid => collidesWith g pid head oid)).length ∧
      (∀ e ∈ (collisionPhase rng rest pid head (g, fc, [])).2.2,
        isDiedOf pid e = true → evCanRespawn e = false)) := by
  refine ⟨?_, ?_, ?_⟩
  · intro oid self other hself hother hne
    exact collidesWith_iff g pid oid head self other hself hother hne
  · intro hf
    obtain ⟨h1, h2, -, -, -⟩ := collisionPhase_freeplay_spec rng pid head g rest
      (g, fc, []) hnd hf (fun _ _ _ => rfl) rfl
    refine ⟨by simpa using h1, ?_⟩
    intro oid ho hne hc
    exact (h2 oid ho hne).1 hc
  · intro hnf
    obtain ⟨dl, d1, d2, d3⟩ := collisionPhase_nonfree_died rng pid head g rest
      (g, fc, []) hnd hnf (fun _ _ _ => rfl) rfl
    constructor
    · rw [d1]
      simpa using d2
    · intro e he hde
      rw [d1] at he
      exact d3 e (by simpa using he) hde

/-- Counterexample for C4 as stated: in `wRoomC4` the tick resolves
`a`'s collision twice — two player-died events for `a` in the same tick,
and both `b` and `c` are credited +50 score and +1 kill — because the
`break` only exits the inner segment loop, not the outer scan over other
players. -/
theorem C4_counterexample :
    (tickRoom wrng wRoomC4 0).2.2
      = [Ev.playerDied "a" [] (some "b") true,
         Ev.playerDied "a" [] (some "c") true] ∧
    ((mget (tickRoom wrng wRoomC4 0).1.players "b").map
        (fun p => (p.snake.score, p.snake.killCount))) = some (50, 1) ∧
    ((mget (tickRoom wrng wRoomC4 0).1.players "c").map
        (fun p => (p.snake.score, p.snake.killCount))) = some (50, 1) := by
  refine ⟨?_, ?_, ?_⟩ <;> with_unfolding_all rfl

/-- Witness for C4 (amended): the characterization instantiated on the
concrete freeplay room `wRoomC4`, scanning the single other id `b`. -/
theorem C4_collision_characterization_witness :
    (["b"] : List String).Nodup ∧
    ((∀ oid self other, mget wRoomC4.players "a" = some self →
      mget wRoomC4.players oid = some other → oid ≠ "a" →
      (collidesWith wRoomC4 "a" ⟨100, 100⟩ oid = true ↔
        other.snake.isDead = false ∧
        ∃ seg ∈ other.snake.segments,
          distLtB ⟨100, 100⟩ seg
            ((self.snake.radius + other.snake.radius) * 0.7) = true)) ∧
    (wRoomC4.rtype = RoomType.freeplay →
      (collisionPhase wrng ["b"] "a" ⟨100, 100⟩ (wRoomC4, 0, [])).2.2
        = (["b"].filter (fun oid => collidesWith wRoomC4 "a" ⟨100, 100⟩ oid)).map
            (fun oid => Ev.playerDied "a" [] (some oid) true) ∧
      (∀ oid ∈ ["b"], oid ≠ "a" → collidesWith wRoomC4 "a" ⟨100, 100⟩ oid = true →
        ∃ p0, mget wRoomC4.players oid = some p0 ∧
          mget (collisionPhase wrng ["b"] "a" ⟨100, 100⟩ (wRoomC4, 0, [])).1.players oid
            = some { p0 with snake :=
                { p0.snake with
                  score := p0.snake.score + 50
                  killCount := p0.snake.killCount + 1 } })) ∧
    (¬wRoomC4.rtype = RoomType.freeplay →
      (((collisionPhase wrng ["b"] "a" ⟨100, 100⟩ (wRoomC4, 0, [])).2.2).filter
          (isDiedOf "a")).length
        = (["b"].filter (fun oid => collidesWith wRoomC4 "a" ⟨100, 100⟩ oid)).length ∧
      (∀ e ∈ (collisionPhase wrng ["b"] "a" ⟨100, 100⟩ (wRoomC4, 0, [])).2.2,
        isDiedOf "a" e = true → evCanRespawn e = false))) :=
  ⟨by decide,
    C4_collision_characterization wrng wRoomC4 "a" ⟨100, 100⟩ ["b"] 0 (by decide)⟩

/-- C5: the food scan of a living, non-wall-hitting snake's tick step
tests every food item against the head position captured *before* this
tick's movement step (`const head = snake.segments[0]` precedes the
movement; the claim's "the head as it stands after this tick's movement
step" is false — see the counterexample), with the live radius threshold
`radius + food.radius` where the radius grows during the scan; each
consumption adds the item's id, +5 score, radius ×1.005 capped at 20 and
one duplicated tail segment, the eaten ids are then deleted and replaced
one-for-one (food count preserved when the generated ids are fresh), and
10 pickups raise the score by exactly 50 with the radius staying ≤ 20. -/
theorem C5_food_consumption (rng : Rng) (pids : List String)
    (st : GameRoom × ℕ × List Ev) (pid : String) (player : Player)
    (hp : mget st.1.players pid = some player)
    (halive : player.snake.isDead = false)
    (hnw : wallHit st.1.worldSize player.snake.radius
      { x := player.snake.segments.headI.x + rng.cos player.snake.angle * 1.8
        y := player.snake.segments.headI.y + rng.sin player.snake.angle * 1.8 } = false) :
    (∀ acc kv, eatStep player.snake.segments.headI acc kv
        = if distLtB player.snake.segments.headI kv.2.pos (acc.2.2.1 + kv.2.radius) then
            (acc.1 ++ [kv.1], acc.2.1 + 5, min 20 (acc.2.2.1 * 1.005),
              acc.2.2.2 ++ [acc.2.2.2.getLastD default])
          else acc) ∧
    (∃ scan,
      scan = eatScan player.snake.segments.headI st.1.food
        ([], player.snake.score, player.snake.radius,
          { x := player.snake.segments.headI.x + rng.cos player.snake.angle * 1.8
            y := player.snake.segments.headI.y + rng.sin player.snake.angle * 1.8 }
            :: player.snake.segments.dropLast) ∧
      stepPlayer rng pids st pid
        = collisionPhase rng pids pid player.snake.segments.headI
            (replaceEaten rng pid scan.2.1 scan.1
              (setSnake st.1 pid
                { player.snake with
                  segments := scan.2.2.2
                  score := scan.2.1
                  radius := scan.2.2.1 },
                st.2.1, st.2.2)) ∧
      scan.1.Sublist (st.1.food.map Prod.fst) ∧
      scan.2.1 = player.snake.score + 5 * scan.1.length ∧
      scan.2.2.2
        = ({ x := player.snake.segments.headI.x + rng.cos player.snake.angle * 1.8
             y := player.snake.segments.headI.y + rng.sin player.snake.angle * 1.8 }
            :: player.snake.segments.dropLast)
          ++ List.replicate scan.1.length
            (({ x := player.snake.segments.headI.x + rng.cos player.snake.angle * 1.8
                y := player.snake.segments.headI.y + rng.sin player.snake.angle * 1.8 }
              :: player.snake.segments.dropLast).getLastD default) ∧
      (player.snake.radius ≤ 20 → scan.2.2.1 ≤ 20) ∧
      (scan.1.length = 10 → scan.2.1 = player.snake.score + 50)) ∧
    (∀ base, FreshIds rng base →
      ∀ (eaten : List String) (acc : GameRoom × ℕ × List Ev) (sc : ℤ),
        FoodKeysOk rng base acc.1 acc.2.1 → eaten.Nodup →
        (∀ s ∈ eaten, s ∈ mkeys acc.1.food) →
        (replaceEaten rng pid sc eaten acc).1.food.length = acc.1.food.length) := by
  obtain ⟨ex, hx1, hx2, hx3, hx4, hx5⟩ :=
    eatScan_spec player.snake.segments.headI st.1.food
      ([], player.snake.score, player.snake.radius,
        { x := player.snake.segments.headI.x + rng.cos player.snake.angle * 1.8
          y := player.snake.segments.headI.y + rng.sin player.snake.angle * 1.8 }
          :: player.snake.segments.dropLast)
  refine ⟨fun acc kv => rfl, ⟨_, rfl, ?_, ?_, ?_, ?_, ?_, ?_⟩, ?_⟩
  · simp [stepPlayer, hp, halive, hnw]
  · rw [hx1]
    simpa using hx2
  · rw [hx3, hx1]
    simp
  · rw [hx4, hx1]
    simp
  · intro hr
    exact hx5 hr
  · intro h10
    rw [hx1] at h10
    simp at h10
    rw [hx3]
    norm_num [h10]
  · intro base hfresh eaten acc sc hok hnd hmem
    exact (replaceEaten_food_spec rng pid sc base hfresh eaten acc hok hnd hmem).1

/-- Counterexample for C5 as stated: in `wRoomC5` the post-move head is
within eating range of food `F` (distance 11.2 < 8 + 4) but the pre-move
head is not (distance 13), and after the tick the food item is still
there and the snake's score is still 0 — the scan uses the head from
*before* the movement step, not after it. -/
theorem C5_counterexample :
    distLtB { x := 101.8, y := 100 } { x := 113, y := 100 } (8 + 4) = true ∧
    distLtB { x := 100, y := 100 } { x := 113, y := 100 } (8 + 4) = false ∧
    (mget (tickRoom wrng wRoomC5 0).1.food "F").isSome = true ∧
    ((mget (tickRoom wrng wRoomC5 0).1.players "a").map
      (fun p => p.snake.score)) = some 0 := by
  refine ⟨?_, ?_, ?_, ?_⟩ <;> with_unfolding_all rfl

/-- Witness for C5 (amended): the food-consumption characterization
instantiated on the concrete freeplay room `wFreeRoomAlive` and its
single living player. -/
theorem C5_food_consumption_witness :
    mget (wFreeRoomAlive, 0, ([] : List Ev)).1.players "a2"
        = some (wPlayerAt "a2" "t2" 100 100) ∧
    ((∀ acc kv, eatStep (wPlayerAt "a2" "t2" 100 100).snake.segments.headI acc kv
        = if distLtB (wPlayerAt "a2" "t2" 100 100).snake.segments.headI kv.2.pos
              (acc.2.2.1 + kv.2.radius) then
            (acc.1 ++ [kv.1], acc.2.1 + 5, min 20 (acc.2.2.1 * 1.005),
              acc.2.2.2 ++ [acc.2.2.2.getLastD default])
          else acc) ∧
    (∃ scan,
      scan = eatScan (wPlayerAt "a2" "t2" 100 100).snake.segments.headI
        (wFreeRoomAlive, 0, ([] : List Ev)).1.food
        ([], (wPlayerAt "a2" "t2" 100 100).snake.score,
          (wPlayerAt "a2" "t2" 100 100).snake.radius,
          { x := (wPlayerAt "a2" "t2" 100 100).snake.segments.headI.x
              + wrng.cos (wPlayerAt "a2" "t2" 100 100).snake.angle * 1.8
            y := (wPlayerAt "a2" "t2" 100 100).snake.segments.headI.y
              + wrng.sin (wPlayerAt "a2" "t2" 100 100).snake.angle * 1.8 }
            :: (wPlayerAt "a2" "t2" 100 100).snake.segments.dropLast) ∧
      stepPlayer wrng ["a2"] (wFreeRoomAlive, 0, ([] : List Ev)) "a2"
        = collisionPhase wrng ["a2"] "a2"
            (wPlayerAt "a2" "t2" 100 100).snake.segments.headI
            (replaceEaten wrng "a2" scan.2.1 scan.1
              (setSnake (wFreeRoomAlive, 0, ([] : List Ev)).1 "a2"
                { (wPlayerAt "a2" "t2" 100 100).snake with
                  segments := scan.2.2.2
                  score := scan.2.1
                  radius := scan.2.2.1 },
                (wFreeRoomAlive, 0, ([] : List Ev)).2.1,
                (wFreeRoomAlive, 0, ([] : List Ev)).2.2)) ∧
      scan.1.Sublist ((wFreeRoomAlive, 0, ([] : List Ev)).1.food.map Prod.fst) ∧
      scan.2.1 = (wPlayerAt "a2" "t2" 100 100).snake.score + 5 * scan.1.length ∧
      scan.2.2.2
        = ({ x := (wPlayerAt "a2" "t2" 100 100).snake.segments.headI.x
              + wrng.cos (wPlayerAt "a2" "t2" 100 100).snake.angle * 1.8
             y := (wPlayerAt "a2" "t2" 100 100).snake.segments.headI.y
              + wrng.sin (wPlayerAt "a2" "t2" 100 100).snake.angle * 1.8 }
            :: (wPlayerAt "a2" "t2" 100 100).snake.segments.dropLast)
          ++ List.replicate scan.1.length
            (({ x := (wPlayerAt "a2" "t2" 100 100).snake.segments.headI.x
                  + wrng.cos (wPlayerAt "a2" "t2" 100 100).snake.angle * 1.8
                y := (wPlayerAt "a2" "t2" 100 100).snake.segments.headI.y
                  + wrng.sin (wPlayerAt "a2" "t2" 100 100).snake.angle * 1.8 }
              :: (wPlayerAt "a2" "t2" 100 100).snake.segments.dropLast).getLastD default) ∧
      ((wPlayerAt "a2" "t2" 100 100).snake.radius ≤ 20 → scan.2.2.1 ≤ 20) ∧
      (scan.1.length = 10 →
        scan.2.1 = (wPlayerAt "a2" "t2" 100 100).snake.score + 50)) ∧
    (∀ base, FreshIds wrng base →
      ∀ (eaten : List String) (acc : GameRoom × ℕ × List Ev) (sc : ℤ),
        FoodKeysOk wrng base acc.1 acc.2.1 → eaten.Nodup →
        (∀ s ∈ eaten, s ∈ mkeys acc.1.food) →
        (replaceEaten wrng "a2" sc eaten acc).1.food.length
          = acc.1.food.length)) :=
  ⟨rfl,
    C5_food_consumption wrng ["a2"] (wFreeRoomAlive, 0, ([] : List Ev)) "a2"
      (wPlayerAt "a2" "t2" 100 100) rfl rfl (by with_unfolding_all rfl)⟩

/-- C6: a living snake's tick step kills it on the wall exactly when the
new head leaves `[radius, worldSize − radius]` on either axis; a
freeplay wall death only marks the snake dead (food map untouched, no
drop) and emits a player-died event with canRespawn = true, while a
non-freeplay wall death marks it dead, drops food, emits the event with
canRespawn = false and re-evaluates the win condition; and the computed
leaderboard only ever lists living players. -/
theorem C6_wall_death (rng : Rng) (pids : List String)
    (st : GameRoom × ℕ × List Ev) (pid : String) (player : Player)
    (hp : mget st.1.players pid = some player)
    (halive : player.snake.isDead = false) :
    (∀ (ws r : ℚ) (nh : Pos), wallHit ws r nh = true ↔
      (nh.x < r ∨ nh.x > ws - r ∨ nh.y < r ∨ nh.y > ws - r)) ∧
    (st.1.rtype = RoomType.freeplay →
      wallHit st.1.worldSize player.snake.radius
        { x := player.snake.segments.headI.x + rng.cos player.snake.angle * 1.8
          y := player.snake.segments.headI.y + rng.sin player.snake.angle * 1.8 }
        = true →
      stepPlayer rng pids st pid
        = (setSnake st.1 pid { player.snake with isDead := true }, st.2.1,
            st.2.2 ++ [Ev.playerDied pid [] none true]) ∧
      (setSnake st.1 pid { player.snake with isDead := true }).food = st.1.food) ∧
    (¬st.1.rtype = RoomType.freeplay →
      wallHit st.1.worldSize player.snake.radius
        { x := player.snake.segments.headI.x + rng.cos player.snake.angle * 1.8
          y := player.snake.segments.headI.y + rng.sin player.snake.angle * 1.8 }
        = true →
      stepPlayer rng pids st pid
        = ((checkWinCondition
              (dropFoodFromSnake rng
                (setSnake st.1 pid { player.snake with isDead := true })
                { player with snake := { player.snake with isDead := true } }
                st.2.1).1).1,
            (dropFoodFromSnake rng
              (setSnake st.1 pid { player.snake with isDead := true })
              { player with snake := { player.snake with isDead := true } }
              st.2.1).2.1,
            st.2.2 ++ [Ev.playerDied pid
                (dropFoodFromSnake rng
                  (setSnake st.1 pid { player.snake with isDead := true })
                  { player with snake := { player.snake with isDead := true } }
                  st.2.1).2.2 none false]
              ++ (checkWinCondition
                (dropFoodFromSnake rng
                  (setSnake st.1 pid { player.snake with isDead := true })
                  { player with snake := { player.snake with isDead := true } }
                  st.2.1).1).2.1)) ∧
    (∀ (g : GameRoom) (lb : List LBEntry),
      (updateLeaderboard g).leaderboard = some lb →
      ∀ e ∈ lb, ∃ q, q ∈ g.players.map Prod.snd ∧ q.snake.isDead = false ∧
        e.id = q.id ∧ e.score = q.snake.score) := by
  refine ⟨?_, ?_, ?_, ?_⟩
  · intro ws r nh
    unfold wallHit
    simp [or_assoc]
  · intro hf hw
    refine ⟨?_, setSnake_food _ _ _⟩
    simp [stepPlayer, hp, halive, hw, hf]
  · intro hnf hw
    simp [stepPlayer, hp, halive, hw, if_neg hnf]
  · intro g lb hlb e he
    unfold updateLeaderboard at hlb
    rw [Option.some.injEq] at hlb
    rw [← hlb] at he
    obtain ⟨p, hpmem, hpe⟩ := List.mem_map.mp he
    have hp1 := List.mem_of_mem_take hpmem
    rw [List.mem_mergeSort] at hp1
    obtain ⟨hp2, hp3⟩ := List.mem_filter.mp hp1
    refine ⟨p, hp2, by simpa using hp3, ?_, ?_⟩
    · rw [← hpe]
    · rw [← hpe]

/-- Witness for C6: the wall-death characterization instantiated on the
concrete freeplay room `wFreeRoomAlive` and its single living player. -/
theorem C6_wall_death_witness :
    mget wFreeRoomAlive.players "a2" = some (wPlayerAt "a2" "t2" 100 100) ∧
    (wPlayerAt "a2" "t2" 100 100).snake.isDead = false ∧
    ((∀ (ws r : ℚ) (nh : Pos), wallHit ws r nh = true ↔
      (nh.x < r ∨ nh.x > ws - r ∨ nh.y < r ∨ nh.y > ws - r)) ∧
    (wFreeRoomAlive.rtype = RoomType.freeplay →
      wallHit wFreeRoomAlive.worldSize (wPlayerAt "a2" "t2" 100 100).snake.radius
        { x := (wPlayerAt "a2" "t2" 100 100).snake.segments.headI.x
            + wrng.cos (wPlayerAt "a2" "t2" 100 100).snake.angle * 1.8
          y := (wPlayerAt "a2" "t2" 100 100).snake.segments.headI.y
            + wrng.sin (wPlayerAt "a2" "t2" 100 100).snake.angle * 1.8 }
        = true →
      stepPlayer wrng ["a2"] (wFreeRoomAlive, 0, ([] : List Ev)) "a2"
        = (setSnake wFreeRoomAlive "a2"
            { (wPlayerAt "a2" "t2" 100 100).snake with isDead := true }, 0,
            ([] : List Ev) ++ [Ev.playerDied "a2" [] none true]) ∧
      (setSnake wFreeRoomAlive "a2"
        { (wPlayerAt "a2" "t2" 100 100).snake with isDead := true }).food
        = wFreeRoomAlive.food) ∧
    (¬wFreeRoomAlive.rtype = RoomType.freeplay →
      wallHit wFreeRoomAlive.worldSize (wPlayerAt "a2" "t2" 100 100).snake.radius
        { x := (wPlayerAt "a2" "t2" 100 100).snake.segments.headI.x
            + wrng.cos (wPlayerAt "a2" "t2" 100 100).snake.angle * 1.8
          y := (wPlayerAt "a2" "t2" 100 100).snake.segments.headI.y
            + wrng.sin (wPlayerAt "a2" "t2" 100 100).snake.angle * 1.8 }
        = true →
      stepPlayer wrng ["a2"] (wFreeRoomAlive, 0, ([] : List Ev)) "a2"
        = ((checkWinCondition
              (dropFoodFromSnake wrng
                (setSnake wFreeRoomAlive "a2"
                  { (wPlayerAt "a2" "t2" 100 100).snake with isDead := true })
                { wPlayerAt "a2" "t2" 100 100 with
                  snake := { (wPlayerAt "a2" "t2" 100 100).snake with isDead := true } }
                0).1).1,
            (dropFoodFromSnake wrng
              (setSnake wFreeRoomAlive "a2"
                { (wPlayerAt "a2" "t2" 100 100).snake with isDead := true })
              { wPlayerAt "a2" "t2" 100 100 with
                snake := { (wPlayerAt "a2" "t2" 100 100).snake with isDead := true } }
              0).2.1,
            ([] : List Ev) ++ [Ev.playerDied "a2"
                (dropFoodFromSnake wrng
                  (setSnake wFreeRoomAlive "a2"
                    { (wPlayerAt "a2" "t2" 100 100).snake with isDead := true })
                  { wPlayerAt "a2" "t2" 100 100 with
                    snake := { (wPlayerAt "a2" "t2" 100 100).snake with isDead := true } }
                  0).2.2 none false]
              ++ (checkWinCondition
                (dropFoodFromSnake wrng
                  (setSnake wFreeRoomAlive "a2"
                    { (wPlayerAt "a2" "t2" 100 100).snake with isDead := true })
                  { wPlayerAt "a2" "t2" 100 100 with
                    snake := { (wPlayerAt "a2" "t2" 100 100).snake with isDead := true } }
                  0).1).2.1)) ∧
    (∀ (g : GameRoom) (lb : List LBEntry),
      (updateLeaderboard g).leaderboard = some lb →
      ∀ e ∈ lb, ∃ q, q ∈ g.players.map Prod.snd ∧ q.snake.isDead = false ∧
        e.id = q.id ∧ e.score = q.snake.score)) :=
  ⟨rfl, rfl,
    C6_wall_death wrng ["a2"] (wFreeRoomAlive, 0, ([] : List Ev)) "a2"
      (wPlayerAt "a2" "t2" 100 100) rfl rfl⟩

end SlitherMatch
